import Mathlib

/-!
# Verification of the Citadel rules-engine subsystem

A shallow embedding, in Lean 4, of the event-sourced rules engine of the
Citadel board game: the coordinate geometry (`Coordinate.ts`), the layered
sparse board and its pathfinding/connectivity utilities (`Board.ts`,
`PathfindingUtils`, `WaterAreaUtils`), the action contract and registry
(`ActionRegistry.ts`, `CoreActionHandlers.ts`), the state-derivation engine
(`GameStateDerivation.ts`) and the worked Builder piece example.

Modelling conventions:
* JS `number` values that the engine treats as integers (coordinates,
  timestamps, counters) are `Int`/`Nat`.
* JS `Map`s keyed by `CoordinateUtils.toKey(c)` are association lists keyed
  by the coordinate itself; `toKey` is injective (`CoordinateUtils.toKey_injective`
  below), so membership and lookup agree with the string-keyed original.
* JS `Set`s of keys are `List`s of coordinates used as sets (insertion order
  preserved, no duplicates inserted), matching `Set` iteration order.
* loops whose termination is not structural take an explicit iteration bound
  and return `Option`/a sentinel when it is exceeded; the bound is chosen so
  that exceeding it is impossible for the loops as written (each iteration
  consumes one queue element and queue growth is limited by a finite
  universe of coordinates).
-/

namespace CitadelGame

/-! ## Coordinate (src/lib/game/board/Coordinate.ts) -/

/-- `interface Coordinate { x: number; y: number }` with integer components. -/
structure Coordinate where
  x : Int
  y : Int
deriving DecidableEq, Repr

namespace CoordinateUtils

/-- Decimal digit character for `d < 10` (code point `48 + d`). -/
def natChar (d : Nat) : Char := Char.ofNat (48 + d)

/-- Decimal representation of a natural number, most significant digit first;
`"0"` for zero.  This is what a JS template literal prints for a
non-negative integral number. -/
def natChars (n : Nat) : List Char :=
  if n = 0 then [natChar 0] else (Nat.digits 10 n).reverse.map natChar

/-- Decimal representation of an integer, with a leading `'-'` for negative
values.  This is what a JS template literal prints for an integral number. -/
def intChars (i : Int) : List Char :=
  if i < 0 then Char.ofNat 45 :: natChars i.natAbs else natChars i.toNat

/-- `toKey(coord)`: the canonical string key `` `${coord.x},${coord.y}` ``. -/
def toKey (coord : Coordinate) : String :=
  ⟨intChars coord.x ++ Char.ofNat 44 :: intChars coord.y⟩

/-- `String.prototype.split(',')` at the character-list level: splits into the
(possibly empty) segments between commas. -/
def splitOnComma : List Char → List (List Char)
  | [] => [[]]
  | c :: rest =>
    match splitOnComma rest with
    | [] => [[]]
    | s :: ss => if c = Char.ofNat 44 then [] :: s :: ss else (c :: s) :: ss

/-- JS `Number(str)` restricted to strings of decimal digits: `some n` when
the string is non-empty and all digits. -/
def charsToNat? (l : List Char) : Option Nat :=
  if l ≠ [] ∧ l.all (fun c => c.isDigit) then
    some (Nat.ofDigits 10 ((l.map (fun c => c.toNat - 48)).reverse))
  else none

/-- JS `Number(str)` on an optionally `'-'`-signed decimal-digit string.
`toKey` only ever produces such segments; other inputs give `Number`
a value (`NaN`, a float, …) with no `Int` counterpart and are mapped
to `none` here. -/
def jsNumberInt? : List Char → Option Int
  | c :: rest =>
    if c = Char.ofNat 45 then (charsToNat? rest).map (fun n => -(n : Int))
    else (charsToNat? (c :: rest)).map (fun n => (n : Int))
  | [] => none

/-- `fromKey(key)`: `const [x, y] = key.split(',').map(Number); return {x, y}`.
On segments that are not signed decimal integers, `Number` produces a value
outside `Int` (see `jsNumberInt?`); the model returns component `0` there.
`fromKey` is only ever applied to keys produced by `toKey`, where this case
does not arise (`fromKey_toKey` below). -/
def fromKey (key : String) : Coordinate :=
  let parts := splitOnComma key.data
  { x := ((parts.get? 0).bind jsNumberInt?).getD 0
    y := ((parts.get? 1).bind jsNumberInt?).getD 0 }

/-- `equals(a, b)` : componentwise equality. -/
def equals (a b : Coordinate) : Bool :=
  a.x = b.x && a.y = b.y

/-- `getOrthogonalAdjacent(coord)`: up, down, left, right. -/
def getOrthogonalAdjacent (coord : Coordinate) : List Coordinate :=
  [ { x := coord.x, y := coord.y - 1 }
  , { x := coord.x, y := coord.y + 1 }
  , { x := coord.x - 1, y := coord.y }
  , { x := coord.x + 1, y := coord.y } ]

/-- `getDiagonalAdjacent(coord)`. -/
def getDiagonalAdjacent (coord : Coordinate) : List Coordinate :=
  [ { x := coord.x - 1, y := coord.y - 1 }
  , { x := coord.x + 1, y := coord.y - 1 }
  , { x := coord.x - 1, y := coord.y + 1 }
  , { x := coord.x + 1, y := coord.y + 1 } ]

/-- `getAllAdjacent(coord)`: orthogonal then diagonal neighbours. -/
def getAllAdjacent (coord : Coordinate) : List Coordinate :=
  getOrthogonalAdjacent coord ++ getDiagonalAdjacent coord

/-- `manhattanDistance(a, b)`. -/
def manhattanDistance (a b : Coordinate) : Int :=
  (a.x - b.x).natAbs + (a.y - b.y).natAbs

/-- `areOrthogonallyAdjacent(a, b)`: Manhattan distance exactly 1. -/
def areOrthogonallyAdjacent (a b : Coordinate) : Bool :=
  manhattanDistance a b = 1

/-- `areDiagonallyAdjacent(a, b)`. -/
def areDiagonallyAdjacent (a b : Coordinate) : Bool :=
  (a.x - b.x).natAbs = 1 && (a.y - b.y).natAbs = 1

/-- `areAdjacent(a, b)`. -/
def areAdjacent (a b : Coordinate) : Bool :=
  areOrthogonallyAdjacent a b || areDiagonallyAdjacent a b

/-! ### Round-trip facts about the canonical key -/

theorem isDigit_natChar {d : Nat} (hd : d < 10) : (natChar d).isDigit = true := by
  unfold natChar
  interval_cases d <;> decide

theorem natChar_ne_comma {d : Nat} (hd : d < 10) : natChar d ≠ Char.ofNat 44 := by
  unfold natChar
  interval_cases d <;> decide

theorem natChar_ne_minus {d : Nat} (hd : d < 10) : natChar d ≠ Char.ofNat 45 := by
  unfold natChar
  interval_cases d <;> decide

theorem mem_natChars_isDigit {n : Nat} {c : Char} (hc : c ∈ natChars n) :
    c.isDigit = true := by
  unfold natChars at hc
  split at hc
  · rw [List.mem_singleton] at hc
    subst hc
    exact isDigit_natChar (by norm_num)
  · rcases List.mem_map.mp hc with ⟨d, hd, rfl⟩
    exact isDigit_natChar (Nat.digits_lt_base (by norm_num) (List.mem_reverse.mp hd))

theorem natChars_ne_nil (n : Nat) : natChars n ≠ [] := by
  unfold natChars
  split
  · simp
  · simp_all [Nat.digits_ne_nil_iff_ne_zero]

theorem mem_intChars_cases {i : Int} {c : Char} (hc : c ∈ intChars i) :
    c = Char.ofNat 45 ∨ c.isDigit = true := by
  unfold intChars at hc
  split at hc
  · rcases List.mem_cons.mp hc with h | h
    · exact Or.inl h
    · exact Or.inr (mem_natChars_isDigit h)
  · exact Or.inr (mem_natChars_isDigit hc)

theorem comma_not_mem_intChars {i : Int} : Char.ofNat 44 ∉ intChars i := by
  intro h
  rcases mem_intChars_cases h with h45 | hdig
  · exact absurd h45 (by decide)
  · exact absurd hdig (by decide)

theorem splitOnComma_no_comma {l : List Char} (h : Char.ofNat 44 ∉ l) :
    splitOnComma l = [l] := by
  induction l with
  | nil => rfl
  | cons c rest ih =>
    have hc : c ≠ Char.ofNat 44 := fun hc => h (hc ▸ List.mem_cons_self c rest)
    have hr : Char.ofNat 44 ∉ rest := fun hm => h (List.mem_cons_of_mem c hm)
    simp [splitOnComma, ih hr, hc]

theorem splitOnComma_append {a b : List Char} (h : Char.ofNat 44 ∉ a) :
    splitOnComma (a ++ Char.ofNat 44 :: b) = a :: splitOnComma b := by
  induction a with
  | nil =>
    simp only [List.nil_append, splitOnComma]
    match hsb : splitOnComma b with
    | [] => simp
    | s :: ss => simp
  | cons c rest ih =>
    have hc : c ≠ Char.ofNat 44 := fun hc => h (hc ▸ List.mem_cons_self c rest)
    have hr : Char.ofNat 44 ∉ rest := fun hm => h (List.mem_cons_of_mem c hm)
    rw [List.cons_append]
    show (match splitOnComma (rest ++ Char.ofNat 44 :: b) with
      | [] => [[]]
      | s :: ss => if c = Char.ofNat 44 then [] :: s :: ss else (c :: s) :: ss)
      = (c :: rest) :: splitOnComma b
    rw [ih hr]
    simp [hc]

theorem toNat_natChar {d : Nat} (hd : d < 10) : (natChar d).toNat - 48 = d := by
  unfold natChar
  interval_cases d <;> decide

theorem charsToNat?_natChars (n : Nat) : charsToNat? (natChars n) = some n := by
  unfold charsToNat?
  rw [if_pos]
  · congr 1
    unfold natChars
    split
    · subst n
      decide
    · rw [List.map_map, List.map_reverse, List.reverse_reverse]
      have hmap : (Nat.digits 10 n).map ((fun c => c.toNat - 48) ∘ natChar)
          = (Nat.digits 10 n).map id := by
        apply List.map_congr_left
        intro d hd
        exact toNat_natChar (Nat.digits_lt_base (by norm_num) hd)
      rw [hmap, List.map_id, Nat.ofDigits_digits]
  · exact ⟨natChars_ne_nil n, List.all_eq_true.mpr fun c hc => mem_natChars_isDigit hc⟩

theorem jsNumberInt?_intChars (i : Int) : jsNumberInt? (intChars i) = some i := by
  by_cases hneg : i < 0
  · have hi : intChars i = Char.ofNat 45 :: natChars i.natAbs := by
      unfold intChars; rw [if_pos hneg]
    rw [hi]
    show (if Char.ofNat 45 = Char.ofNat 45 then
        (charsToNat? (natChars i.natAbs)).map (fun n => -(n : Int))
      else (charsToNat? (Char.ofNat 45 :: natChars i.natAbs)).map (fun n => (n : Int)))
      = some i
    rw [if_pos rfl, charsToNat?_natChars]
    show some (-(i.natAbs : Int)) = some i
    congr 1
    rw [Int.ofNat_natAbs_of_nonpos (le_of_lt hneg), neg_neg]
  · have hi : intChars i = natChars i.toNat := by
      unfold intChars; rw [if_neg hneg]
    obtain ⟨c, rest, hcr⟩ : ∃ c rest, natChars i.toNat = c :: rest := by
      match hn : natChars i.toNat with
      | [] => exact absurd hn (natChars_ne_nil _)
      | c :: rest => exact ⟨c, rest, rfl⟩
    have hcdig : c.isDigit = true := mem_natChars_isDigit (hcr ▸ List.mem_cons_self c rest)
    have hcne : c ≠ Char.ofNat 45 := by
      intro hc
      rw [hc] at hcdig
      exact absurd hcdig (by decide)
    rw [hi, hcr]
    show (if c = Char.ofNat 45 then
        (charsToNat? rest).map (fun n => -(n : Int))
      else (charsToNat? (c :: rest)).map (fun n => (n : Int)))
      = some i
    rw [if_neg hcne, ← hcr, charsToNat?_natChars]
    show some ((i.toNat : Int)) = some i
    congr 1
    omega

/-- Law from the spec: `fromKey(toKey(c)) == c` for all coordinates. -/
theorem fromKey_toKey (c : Coordinate) : fromKey (toKey c) = c := by
  have hsplit : splitOnComma (toKey c).data = [intChars c.x, intChars c.y] := by
    show splitOnComma (intChars c.x ++ Char.ofNat 44 :: intChars c.y) = _
    rw [splitOnComma_append comma_not_mem_intChars,
      splitOnComma_no_comma comma_not_mem_intChars]
  unfold fromKey
  rw [hsplit]
  show Coordinate.mk ((jsNumberInt? (intChars c.x)).getD 0)
    ((jsNumberInt? (intChars c.y)).getD 0) = c
  rw [jsNumberInt?_intChars, jsNumberInt?_intChars]
  rfl

/-- `toKey` is injective, so a JS `Map`/`Set` keyed by `toKey(c)` behaves
exactly like one keyed by the coordinate itself. -/
theorem toKey_injective : Function.Injective toKey :=
  Function.LeftInverse.injective fromKey_toKey

end CoordinateUtils

/-! ## Game state data model (src/lib/game/engine/GameState.ts)

`PieceType` is kept as a `String` (the engine only ever compares it against
literals such as `'turtle'`).  The optional opaque `state`/`gameSpecificState`
payloads are omitted: no operation modelled here reads or writes them. -/

/-- `interface Piece` — `position` is `null` while in a stash, pool or the
graveyard. -/
structure Piece where
  id : String
  type : String
  ownerId : String
  position : Option Coordinate
deriving DecidableEq, Repr

/-- `interface Land` — `ownerId` is `null` for neutral land. -/
structure Land where
  id : String
  position : Coordinate
  ownerId : Option String
deriving DecidableEq, Repr

/-- `interface Citadel`. -/
structure Citadel where
  id : String
  position : Coordinate
  ownerId : String
deriving DecidableEq, Repr

/-- `interface Player`. -/
structure Player where
  id : String
  name : String
  artSetId : Option String
  isHost : Bool
  personalStash : List Piece
  turnOrder : Nat
deriving DecidableEq, Repr

/-- `type GamePhase`. -/
inductive GamePhase where
  | setup
  | landPlacement
  | citadelPlacement
  | pieceSelection
  | battle
  | finished
deriving DecidableEq, Repr

/-- `interface GameConfig`. -/
structure GameConfig where
  landsPerPlayer : Int
  personalPiecesPerPlayer : Int
  communityPiecesPerPlayer : Int
  maxPlayers : Nat
  gameMode : String
deriving DecidableEq, Repr

/-- `interface GameState` — the derived projection, never stored. -/
structure GameState where
  id : String
  createdAt : Int
  updatedAt : Int
  phase : GamePhase
  config : GameConfig
  players : List Player
  currentPlayerId : Option String
  lands : List Land
  pieces : List Piece
  citadels : List Citadel
  graveyard : List Piece
  communityPool : List Piece
  winnerId : Option String
deriving DecidableEq, Repr

/-- `interface InitialGameState`. -/
structure InitialGameState where
  id : String
  createdAt : Int
  config : GameConfig
  hostPlayerId : String
  joinCode : String
deriving DecidableEq, Repr

/-! ## Actions (src/lib/game/engine/BaseActions.ts)

An action is the base envelope plus a kind-specific payload.  The payload
constructors cover every kind the engine registers; `otherKind` stands for
any further string kind (the registry and the derivation switch treat such
actions as unrecognized). -/

/-- `'personal' | 'community'`. -/
inductive StashSource where
  | personal
  | community
deriving DecidableEq, Repr

/-- Kind-specific payload of a `GameAction`. -/
inductive ActionData where
  | joinGame (playerName : String) (artSetId : Option String)
  | startGame
  | placeLand (position : Coordinate) (landId : String)
  | placeCitadel (position : Coordinate) (citadelId : String)
  | selectPiece (pieceType : String) (destination : StashSource) (pieceId : String)
  | placePiece (pieceId : String) (position : Coordinate) (source : StashSource)
  | movePiece (pieceId : String) (fromPosition toPosition : Coordinate)
  | capturePiece (capturingPieceId capturedPieceId : String) (position : Coordinate)
  | endTurn
  | concede
  | builderPlaceLand (builderId landId : String) (position : Coordinate)
  | builderMoveLand (builderId landId : String) (fromPosition toPosition : Coordinate)
  | builderRemoveLand (builderId landId : String) (position : Coordinate)
  | otherKind (kind : String)
deriving DecidableEq, Repr

/-- The `type` string of an action payload. -/
def ActionData.kind : ActionData → String
  | .joinGame .. => "join-game"
  | .startGame => "start-game"
  | .placeLand .. => "place-land"
  | .placeCitadel .. => "place-citadel"
  | .selectPiece .. => "select-piece"
  | .placePiece .. => "place-piece"
  | .movePiece .. => "move-piece"
  | .capturePiece .. => "capture-piece"
  | .endTurn => "end-turn"
  | .concede => "concede"
  | .builderPlaceLand .. => "builder-place-land"
  | .builderMoveLand .. => "builder-move-land"
  | .builderRemoveLand .. => "builder-remove-land"
  | .otherKind kind => kind

/-- `interface BaseGameAction` with the kind-specific fields in `data`. -/
structure GameAction where
  id : String
  timestamp : Int
  playerId : String
  data : ActionData
deriving DecidableEq, Repr

/-- JS `x || null` on a string-or-missing value: the empty string is falsy. -/
def jsStrOrNone (s : String) : Option String :=
  if s = "" then none else some s

/-- `boolean | string` of the validator contract: `Sum.inl true` is "valid",
`Sum.inr reason` rejects with a reason. -/
abbrev ValidationResult := Sum Bool String

/-! ## Core action handlers (src/lib/game/engine/CoreActionHandlers.ts)

Each handler takes the full action and pattern-matches its payload; the
registry and the derivation switch only ever invoke a handler on its own
kind, so the fall-through branch (return the state unchanged) is never
reached through them.  The private `applyX` methods of `GameStateDerivation`
(GameStateDerivation.ts) have bodies textually identical to these handlers,
so one definition serves both files. -/

namespace CoreActionHandlers

/-- `handleJoinGame`. -/
def handleJoinGame (state : GameState) (action : GameAction) : GameState :=
  match action.data with
  | .joinGame playerName artSetId =>
    if (state.players.find? (fun p => p.id = action.playerId)).isSome then
      state
    else
      { state with players := state.players ++
          [{ id := action.playerId, name := playerName, artSetId := artSetId,
             isHost := false, personalStash := [], turnOrder := state.players.length }] }
  | _ => state

/-- `validateJoinGame`. -/
def validateJoinGame (state : GameState) (action : GameAction) : ValidationResult :=
  match action.data with
  | .joinGame _ _ =>
    if state.phase ≠ .setup then Sum.inr "Can only join during setup phase"
    else if state.config.maxPlayers ≤ state.players.length then Sum.inr "Game is full"
    else if (state.players.find? (fun p => p.id = action.playerId)).isSome then
      Sum.inr "Player already in game"
    else Sum.inl true
  | _ => Sum.inl true

/-- `handleStartGame`. -/
def handleStartGame (state : GameState) (_action : GameAction) : GameState :=
  if state.phase ≠ .setup then state
  else
    { state with
      phase := .landPlacement
      currentPlayerId := state.players.head?.bind (fun p => jsStrOrNone p.id) }

/-- `validateStartGame`. -/
def validateStartGame (state : GameState) (_action : GameAction) : ValidationResult :=
  if state.phase ≠ .setup then Sum.inr "Can only start from setup phase"
  else if state.players.length < 2 then Sum.inr "Need at least 2 players to start"
  else Sum.inl true

/-- `handlePlaceLand`. -/
def handlePlaceLand (state : GameState) (action : GameAction) : GameState :=
  match action.data with
  | .placeLand position landId =>
    if (state.lands.find? (fun l =>
        l.position.x = position.x && l.position.y = position.y)).isSome then
      state
    else
      { state with lands := state.lands ++
          [{ id := landId, position := position, ownerId := some action.playerId }] }
  | _ => state

/-- `validatePlaceLand`. -/
def validatePlaceLand (state : GameState) (action : GameAction) : ValidationResult :=
  match action.data with
  | .placeLand position _ =>
    if state.phase ≠ .landPlacement then
      Sum.inr "Can only place land during land placement phase"
    else if state.currentPlayerId ≠ some action.playerId then Sum.inr "Not your turn"
    else if (state.lands.find? (fun l =>
        l.position.x = position.x && l.position.y = position.y)).isSome then
      Sum.inr "Position already has land"
    else Sum.inl true
  | _ => Sum.inl true

/-- `handlePlaceCitadel` — requires the acting player's own land *at* the
target position. -/
def handlePlaceCitadel (state : GameState) (action : GameAction) : GameState :=
  match action.data with
  | .placeCitadel position citadelId =>
    match state.lands.find? (fun l =>
        l.position.x = position.x && l.position.y = position.y) with
    | none => state
    | some landAtPosition =>
      if landAtPosition.ownerId ≠ some action.playerId then state
      else
        { state with citadels := state.citadels ++
            [{ id := citadelId, position := position, ownerId := action.playerId }] }
  | _ => state

/-- `validatePlaceCitadel`. -/
def validatePlaceCitadel (state : GameState) (action : GameAction) : ValidationResult :=
  match action.data with
  | .placeCitadel position _ =>
    if state.phase ≠ .citadelPlacement then
      Sum.inr "Can only place citadel during citadel placement phase"
    else
      match state.lands.find? (fun l =>
          l.position.x = position.x && l.position.y = position.y) with
      | none => Sum.inr "No land at that position"
      | some landAtPosition =>
        if landAtPosition.ownerId ≠ some action.playerId then
          Sum.inr "Can only place citadel on your own land"
        else Sum.inl true
  | _ => Sum.inl true

/-- `handleSelectPiece`. -/
def handleSelectPiece (state : GameState) (action : GameAction) : GameState :=
  match action.data with
  | .selectPiece pieceType destination pieceId =>
    let newPiece : Piece :=
      { id := pieceId, type := pieceType,
        ownerId := if destination = .personal then action.playerId else "community",
        position := none }
    match destination with
    | .personal =>
      { state with players := state.players.map (fun player =>
          if player.id = action.playerId then
            { player with personalStash := player.personalStash ++ [newPiece] }
          else player) }
    | .community =>
      { state with communityPool := state.communityPool ++ [newPiece] }
  | _ => state

/-- `handlePlacePiece`. -/
def handlePlacePiece (state : GameState) (action : GameAction) : GameState :=
  match action.data with
  | .placePiece pieceId position source =>
    match source with
    | .personal =>
      let player? := state.players.find? (fun p => p.id = action.playerId)
      match player?.bind (fun player =>
          player.personalStash.find? (fun p => p.id = pieceId)) with
      | none => state
      | some piece =>
        let updatedPlayers := state.players.map (fun p =>
          if p.id = action.playerId then
            { p with personalStash := p.personalStash.filter (fun q => !(q.id = pieceId)) }
          else p)
        { state with
          players := updatedPlayers
          pieces := state.pieces ++ [{ piece with position := some position }] }
    | .community =>
      match state.communityPool.find? (fun p => p.id = pieceId) with
      | none => state
      | some found =>
        let updatedCommunityPool := state.communityPool.filter (fun p => !(p.id = pieceId))
        let piece := { found with ownerId := action.playerId }
        { state with
          communityPool := updatedCommunityPool
          pieces := state.pieces ++ [{ piece with position := some position }] }
  | _ => state

/-- `handleMovePiece`. -/
def handleMovePiece (state : GameState) (action : GameAction) : GameState :=
  match action.data with
  | .movePiece pieceId _ toPosition =>
    { state with pieces := state.pieces.map (fun piece =>
        if piece.id = pieceId then { piece with position := some toPosition } else piece) }
  | _ => state

/-- `handleCapturePiece`. -/
def handleCapturePiece (state : GameState) (action : GameAction) : GameState :=
  match action.data with
  | .capturePiece _ capturedPieceId _ =>
    match state.pieces.find? (fun p => p.id = capturedPieceId) with
    | none => state
    | some capturedPiece =>
      { state with
        pieces := state.pieces.filter (fun p => !(p.id = capturedPieceId))
        graveyard := state.graveyard ++ [{ capturedPiece with position := none }] }
  | _ => state

/-- `handleEndTurn`.  `findIndex` yields `-1` when `currentPlayerId` matches
no player (or is `null`); with no players at all, `players[(i+1) % 0]` is
`players[NaN] = undefined`, i.e. the next player is `null`. -/
def handleEndTurn (state : GameState) (_action : GameAction) : GameState :=
  let currentPlayerIndex : Int :=
    match state.players.findIdx? (fun p => some p.id = state.currentPlayerId) with
    | some i => (i : Int)
    | none => -1
  if state.players.length = 0 then { state with currentPlayerId := none }
  else
    let nextPlayerIndex := ((currentPlayerIndex + 1) % (state.players.length : Int)).toNat
    { state with currentPlayerId :=
        (state.players.get? nextPlayerIndex).bind (fun p => jsStrOrNone p.id) }

/-- `validateEndTurn`. -/
def validateEndTurn (state : GameState) (action : GameAction) : ValidationResult :=
  if state.currentPlayerId ≠ some action.playerId then Sum.inr "Not your turn"
  else Sum.inl true

/-- `handleConcede`. -/
def handleConcede (state : GameState) (action : GameAction) : GameState :=
  let winner := state.players.find? (fun p => !(p.id = action.playerId))
  { state with
    phase := .finished
    winnerId := winner.bind (fun p => jsStrOrNone p.id)
    currentPlayerId := none }

end CoreActionHandlers

/-! ## Builder piece (src/lib/game/pieces/examples/BuilderPiece.ts) -/

namespace BuilderPiece

/-- `handleRemoveLand`: drop the land tile and send any piece standing on the
removed position to the graveyard. -/
def handleRemoveLand (state : GameState) (action : GameAction) : GameState :=
  match action.data with
  | .builderRemoveLand _ landId position =>
    let updatedLands := state.lands.filter (fun l => !(l.id = landId))
    let onRemoved : Piece → Bool := fun p =>
      match p.position with
      | some q => q.x = position.x && q.y = position.y
      | none => false
    let piecesOnLand := state.pieces.filter onRemoved
    let updatedPieces := state.pieces.filter (fun p => !(onRemoved p))
    { state with
      lands := updatedLands
      pieces := updatedPieces
      graveyard := state.graveyard ++ piecesOnLand.map (fun p => { p with position := none }) }
  | _ => state

/-- `validateRemoveLand`: checks that the acting player's builder exists, is
on the board and is adjacent (8-neighbourhood, `Math.abs ≤ 1`) to the land.
The source ends with `// TODO: Add citadel connectivity validation` — no
connectivity/disconnection check is performed. -/
def validateRemoveLand (state : GameState) (action : GameAction) : ValidationResult :=
  match action.data with
  | .builderRemoveLand builderId landId _ =>
    match (state.pieces.find? (fun p =>
        p.id = builderId && p.ownerId = action.playerId)).bind Piece.position with
    | none => Sum.inr "Builder not found or not on board"
    | some builderPos =>
      match state.lands.find? (fun l => l.id = landId) with
      | none => Sum.inr "Land tile not found"
      | some land =>
        let landPos := land.position
        let isAdjacent : Bool :=
          (builderPos.x - landPos.x).natAbs ≤ 1 && (builderPos.y - landPos.y).natAbs ≤ 1
        if !isAdjacent then Sum.inr "Builder must be adjacent to land to remove it"
        else Sum.inl true
  | _ => Sum.inl true

end BuilderPiece

/-! ## Action registry (src/lib/game/engine/ActionRegistry.ts)

The registry keeps three `Map`s (definition / handler / validator) that
`registerAction` updates together; a single definition map keyed by the
action type models all three.  `Map.set` on an existing key replaces the
value in place; on a fresh key it appends in insertion order. -/

/-- One registered action: `interface ActionDefinition` (the `description`
and `allowedPieceTypes` metadata play no role in dispatch). -/
structure ActionDefinition where
  type : String
  handler : GameState → GameAction → GameState
  validator : Option (GameState → GameAction → ValidationResult) := none

/-- JS `Map.set` on an association list: replace in place, else append. -/
def stringMapSet {α : Type} (m : List (String × α)) (k : String) (v : α) :
    List (String × α) :=
  if m.any (fun p => p.1 = k) then m.map (fun p => if p.1 = k then (k, v) else p)
  else m ++ [(k, v)]

/-- The registry contents: action type ↦ definition. -/
abbrev ActionRegistry := List (String × ActionDefinition)

namespace ActionRegistry

/-- `registerAction(definition)` — re-registering a type overwrites it. -/
def registerAction (reg : ActionRegistry) (d : ActionDefinition) : ActionRegistry :=
  stringMapSet reg d.type d

/-- `getHandler(actionType)`. -/
def getHandler (reg : ActionRegistry) (actionType : String) :
    Option (GameState → GameAction → GameState) :=
  (reg.find? (fun p => p.1 = actionType)).map (fun p => p.2.handler)

/-- `getValidator(actionType)`. -/
def getValidator (reg : ActionRegistry) (actionType : String) :
    Option (GameState → GameAction → ValidationResult) :=
  (reg.find? (fun p => p.1 = actionType)).bind (fun p => p.2.validator)

/-- `applyAction(currentState, action)` — `none` models the
`No handler registered for action type` exception. -/
def applyAction (reg : ActionRegistry) (currentState : GameState)
    (action : GameAction) : Option GameState :=
  (getHandler reg action.data.kind).map (fun h => h currentState action)

/-- `validateAction(currentState, action)` — no validator means always valid. -/
def validateAction (reg : ActionRegistry) (currentState : GameState)
    (action : GameAction) : ValidationResult :=
  match getValidator reg action.data.kind with
  | none => Sum.inl true
  | some v => v currentState action

end ActionRegistry

/-- `CoreActionHandlers.registerAll()`: the registry after registering the
ten core actions, in source order, starting from an empty registry. -/
def coreRegistry : ActionRegistry :=
  [ { type := "join-game", handler := CoreActionHandlers.handleJoinGame,
      validator := some CoreActionHandlers.validateJoinGame }
  , { type := "start-game", handler := CoreActionHandlers.handleStartGame,
      validator := some CoreActionHandlers.validateStartGame }
  , { type := "place-land", handler := CoreActionHandlers.handlePlaceLand,
      validator := some CoreActionHandlers.validatePlaceLand }
  , { type := "place-citadel", handler := CoreActionHandlers.handlePlaceCitadel,
      validator := some CoreActionHandlers.validatePlaceCitadel }
  , { type := "select-piece", handler := CoreActionHandlers.handleSelectPiece }
  , { type := "place-piece", handler := CoreActionHandlers.handlePlacePiece }
  , { type := "move-piece", handler := CoreActionHandlers.handleMovePiece }
  , { type := "capture-piece", handler := CoreActionHandlers.handleCapturePiece }
  , { type := "end-turn", handler := CoreActionHandlers.handleEndTurn,
      validator := some CoreActionHandlers.validateEndTurn }
  , { type := "concede", handler := CoreActionHandlers.handleConcede }
  ].foldl ActionRegistry.registerAction []

/-! ## State derivation (src/lib/game/engine/GameStateDerivation.ts and its
registry-based variant) -/

namespace GameStateDerivation

/-- `applyAction(currentState, action)` — the `switch`-based engine: stamp
`updatedAt = action.timestamp`, then dispatch on the action type; the
`default` branch returns the stamped state unchanged. -/
def applyAction (currentState : GameState) (action : GameAction) : GameState :=
  let baseState := { currentState with updatedAt := action.timestamp }
  match action.data with
  | .joinGame .. => CoreActionHandlers.handleJoinGame baseState action
  | .startGame => CoreActionHandlers.handleStartGame baseState action
  | .placeLand .. => CoreActionHandlers.handlePlaceLand baseState action
  | .placeCitadel .. => CoreActionHandlers.handlePlaceCitadel baseState action
  | .selectPiece .. => CoreActionHandlers.handleSelectPiece baseState action
  | .placePiece .. => CoreActionHandlers.handlePlacePiece baseState action
  | .movePiece .. => CoreActionHandlers.handleMovePiece baseState action
  | .capturePiece .. => CoreActionHandlers.handleCapturePiece baseState action
  | .endTurn => CoreActionHandlers.handleEndTurn baseState action
  | .concede => CoreActionHandlers.handleConcede baseState action
  | _ => baseState

/-- The zero-action base state of `deriveState`.  The source sets
`updatedAt: Date.now()`; the ambient wall clock is the explicit `now`. -/
def baseState (initialState : InitialGameState) (now : Int) : GameState :=
  { id := initialState.id, createdAt := initialState.createdAt, updatedAt := now,
    phase := .setup, config := initialState.config, players := [],
    currentPlayerId := none, lands := [], pieces := [], citadels := [],
    graveyard := [], communityPool := [], winnerId := none }

/-- `deriveState(initialState, actions)`: left-fold of `applyAction` over the
ordered action list, starting from the base state. -/
def deriveState (initialState : InitialGameState) (actions : List GameAction)
    (now : Int) : GameState :=
  actions.foldl applyAction (baseState initialState now)

/-- The registry-based `applyAction` of the pluggable engine: stamp
`updatedAt`, then `try { ActionRegistry.applyAction } catch { baseState }` —
an unregistered kind returns the stamped state unchanged.  (Handlers are
total functions here, so the catch only ever sees the missing-handler
exception.) -/
def applyActionRegistry (reg : ActionRegistry) (currentState : GameState)
    (action : GameAction) : GameState :=
  let base := { currentState with updatedAt := action.timestamp }
  match ActionRegistry.applyAction reg base action with
  | some s => s
  | none => base

/-- `deriveState` of the registry-based engine (the per-action try/catch in
its fold is the one inside `applyActionRegistry`). -/
def deriveStateRegistry (reg : ActionRegistry) (initialState : InitialGameState)
    (actions : List GameAction) (now : Int) : GameState :=
  actions.foldl (applyActionRegistry reg) (baseState initialState now)

end GameStateDerivation

/-! ## Board (src/lib/game/board/Board.ts)

The four layer `Map`s are association lists keyed by the coordinate itself
(`toKey` is injective, see `CoordinateUtils.toKey_injective`). -/

/-- JS `Map.set` keyed by a coordinate: replace in place, else append. -/
def coordMapSet {α : Type} (m : List (Coordinate × α)) (k : Coordinate) (v : α) :
    List (Coordinate × α) :=
  if m.any (fun p => p.1 = k) then m.map (fun p => if p.1 = k then (k, v) else p)
  else m ++ [(k, v)]

/-- JS `Map.get` keyed by a coordinate. -/
def coordMapGet {α : Type} (m : List (Coordinate × α)) (k : Coordinate) : Option α :=
  (m.find? (fun p => p.1 = k)).map (fun p => p.2)

/-- Insert a coordinate into a JS `Set` of keys (append if absent). -/
def coordSetAdd (s : List Coordinate) (c : Coordinate) : List Coordinate :=
  if s.any (fun d => d = c) then s else s ++ [c]

/-- The sparse layered board: `landMap`, `turtleMap`, `pieceMap`, `citadelMap`. -/
structure Board where
  landMap : List (Coordinate × Land)
  turtleMap : List (Coordinate × Piece)
  pieceMap : List (Coordinate × Piece)
  citadelMap : List (Coordinate × Citadel)

/-- A rectangular search window `{ topLeft, bottomRight }`. -/
structure BoundingBox where
  topLeft : Coordinate
  bottomRight : Coordinate
deriving DecidableEq, Repr

namespace Board

/-- `new Board(lands, pieces, citadels)` / `updateBoard`: populate the layer
maps.  The source walks `pieces` once and routes each positioned piece to
`turtleMap` or `pieceMap` by its type; two filtering folds build the same two
maps. -/
def new (lands : List Land) (pieces : List Piece) (citadels : List Citadel) :
    Board :=
  { landMap := lands.foldl (fun m land => coordMapSet m land.position land) []
    turtleMap := pieces.foldl (fun m piece =>
      match piece.position with
      | some pos => if piece.type = "turtle" then coordMapSet m pos piece else m
      | none => m) []
    pieceMap := pieces.foldl (fun m piece =>
      match piece.position with
      | some pos => if piece.type = "turtle" then m else coordMapSet m pos piece
      | none => m) []
    citadelMap := citadels.foldl (fun m citadel =>
      coordMapSet m citadel.position citadel) [] }

/-- `getLand(coordinate)`. -/
def getLand (b : Board) (coordinate : Coordinate) : Option Land :=
  coordMapGet b.landMap coordinate

/-- `getTurtle(coordinate)`. -/
def getTurtle (b : Board) (coordinate : Coordinate) : Option Piece :=
  coordMapGet b.turtleMap coordinate

/-- `getPiece(coordinate)` (piece layer only). -/
def getPiece (b : Board) (coordinate : Coordinate) : Option Piece :=
  coordMapGet b.pieceMap coordinate

/-- `getCitadel(coordinate)`. -/
def getCitadel (b : Board) (coordinate : Coordinate) : Option Citadel :=
  coordMapGet b.citadelMap coordinate

/-- `hasLand(coordinate)`. -/
def hasLand (b : Board) (coordinate : Coordinate) : Bool :=
  b.landMap.any (fun p => p.1 = coordinate)

/-- `hasTurtle(coordinate)`. -/
def hasTurtle (b : Board) (coordinate : Coordinate) : Bool :=
  b.turtleMap.any (fun p => p.1 = coordinate)

/-- `hasFoundation(coordinate)`: land or turtle. -/
def hasFoundation (b : Board) (coordinate : Coordinate) : Bool :=
  b.hasLand coordinate || b.hasTurtle coordinate

/-- `isWater(coordinate)`: no foundation. -/
def isWater (b : Board) (coordinate : Coordinate) : Bool :=
  !(b.hasFoundation coordinate)

/-- `isOccupied(coordinate)`: a piece on the piece layer. -/
def isOccupied (b : Board) (coordinate : Coordinate) : Bool :=
  b.pieceMap.any (fun p => p.1 = coordinate)

/-- `getLandsByOwner(ownerId)`: land-map values with the given owner. -/
def getLandsByOwner (b : Board) (ownerId : Option String) : List Land :=
  (b.landMap.map (fun p => p.2)).filter (fun land => land.ownerId = ownerId)

/-- `getTurtlesByOwner(ownerId)`. -/
def getTurtlesByOwner (b : Board) (ownerId : String) : List Piece :=
  (b.turtleMap.map (fun p => p.2)).filter (fun turtle => turtle.ownerId = ownerId)

/-- The integers from `lo` to `hi` inclusive (empty when `hi < lo`). -/
def intRange (lo hi : Int) : List Int :=
  (List.range (hi + 1 - lo).toNat).map (fun i => lo + (i : Int))

/-- `getCoordinatesInArea(topLeft, bottomRight)`: the window enumerated with
`x` as the outer loop and `y` as the inner loop. -/
def getCoordinatesInArea (topLeft bottomRight : Coordinate) : List Coordinate :=
  (intRange topLeft.x bottomRight.x).flatMap (fun x =>
    (intRange topLeft.y bottomRight.y).map (fun y => { x := x, y := y }))

/-- `getAllActiveCoordinates()`: the key set of the four layers, in
insertion order (lands, turtles, pieces, citadels). -/
def getAllActiveCoordinates (b : Board) : List Coordinate :=
  let s := b.landMap.foldl (fun acc p => coordSetAdd acc p.1) []
  let s := b.turtleMap.foldl (fun acc p => coordSetAdd acc p.1) s
  let s := b.pieceMap.foldl (fun acc p => coordSetAdd acc p.1) s
  b.citadelMap.foldl (fun acc p => coordSetAdd acc p.1) s

/-- `getBoundingBox()`: `null` on an empty board, otherwise the componentwise
min/max of the active coordinates. -/
def getBoundingBox (b : Board) : Option BoundingBox :=
  match b.getAllActiveCoordinates with
  | [] => none
  | c :: rest =>
    some { topLeft := { x := rest.foldl (fun m d => min m d.x) c.x
                        y := rest.foldl (fun m d => min m d.y) c.y }
           bottomRight := { x := rest.foldl (fun m d => max m d.x) c.x
                            y := rest.foldl (fun m d => max m d.y) c.y } }

end Board

/-! ## Pathfinding & connectivity (src/lib/game/board/PathfindingUtils.ts) -/

/-- `interface PathfindingResult`. -/
structure PathfindingResult where
  found : Bool
  path : List Coordinate
  distance : Nat
  explored : List Coordinate

/-- `interface PathfindingOptions`; `isValidMove := none` selects the
per-function default predicate. -/
structure PathfindingOptions where
  maxDistance : Nat := 100
  allowDiagonal : Bool := false
  isValidMove : Option (Coordinate → Coordinate → Board → Bool) := none
  includeStart : Bool := true

namespace PathfindingUtils

/-- The neighbourhood configured by `allowDiagonal`. -/
def neighborsOf (allowDiagonal : Bool) (c : Coordinate) : List Coordinate :=
  if allowDiagonal then CoordinateUtils.getAllAdjacent c
  else CoordinateUtils.getOrthogonalAdjacent c

/-- One pass of the `for (const neighbor of neighbors)` body of
`findReachableArea`: mark fresh valid neighbours visited and enqueue them. -/
def reachStep (isValid : Coordinate → Coordinate → Board → Bool) (board : Board)
    (current : Coordinate) (distance : Nat)
    (vq : List Coordinate × List (Coordinate × Nat)) (neighbor : Coordinate) :
    List Coordinate × List (Coordinate × Nat) :=
  if vq.1.any (fun d => d = neighbor) then vq
  else if isValid current neighbor board then
    (vq.1 ++ [neighbor], vq.2 ++ [(neighbor, distance + 1)])
  else vq

/-- The `while (queue.length > 0)` loop of `findReachableArea`.  `fuel`
bounds the number of pops and is chosen by the caller so that it cannot run
out (each pop consumes a queue entry; entries are enqueued at most once per
coordinate of a finite region); `none` reports the bound was exceeded. -/
def reachAux (isValid : Coordinate → Coordinate → Board → Bool) (board : Board)
    (allowDiagonal : Bool) (maxDistance : Nat) :
    Nat → List (Coordinate × Nat) → List Coordinate → List Coordinate →
    Option (List Coordinate)
  | _, [], _, reachable => some reachable
  | 0, _ :: _, _, _ => none
  | fuel + 1, (current, distance) :: queue, visited, reachable =>
    let reachable := reachable ++ [current]
    if maxDistance ≤ distance then
      reachAux isValid board allowDiagonal maxDistance fuel queue visited reachable
    else
      let step := (neighborsOf allowDiagonal current).foldl
        (reachStep isValid board current distance) (visited, queue)
      reachAux isValid board allowDiagonal maxDistance fuel step.2 step.1 reachable

/-- `findReachableArea(start, board, options)`: bounded BFS flood fill.  The
iteration bound `(2*maxDistance+1)^2 + 1` dominates the number of pops:
every coordinate ever enqueued lies within Chebyshev distance `maxDistance`
of the start and is enqueued at most once. -/
def findReachableArea (start : Coordinate) (board : Board)
    (options : PathfindingOptions) : Option (List Coordinate) :=
  let maxDistance := options.maxDistance
  let isValid := options.isValidMove.getD
    (fun _src tgt b => b.hasFoundation tgt)
  if !(board.hasFoundation start) then some []
  else
    reachAux isValid board options.allowDiagonal maxDistance
      ((2 * maxDistance + 1) ^ 2 + 1) [(start, 0)] [start] []

/-- The `allFoundations` list of `arePlayerFoundationsConnected`: positions
of the player's lands, then of the player's turtles.
(`playerTurtles.map(t => t.position!).filter(p => p)` keeps every position
object — objects are truthy — so it is `filterMap position`.) -/
def allFoundationsOf (playerId : String) (board : Board) : List Coordinate :=
  (board.getLandsByOwner (some playerId)).map (fun l => l.position)
    ++ (board.getTurtlesByOwner playerId).filterMap (fun t => t.position)

/-- The `isValidMove` predicate `arePlayerFoundationsConnected` passes to the
flood fill: the target coordinate holds the player's own land or turtle
(`(land?.ownerId === playerId) || (turtle?.ownerId === playerId)`). -/
def ownFoundationValid (playerId : String) :
    Coordinate → Coordinate → Board → Bool :=
  fun _src tgt b =>
    ((b.getLand tgt).map (fun land => (land.ownerId = some playerId : Bool))).getD false
    || ((b.getTurtle tgt).map (fun t => (t.ownerId = playerId : Bool))).getD false

/-- `arePlayerFoundationsConnected(playerId, board)`: trivially true with at
most one owned foundation entry; otherwise flood-fill from the first owned
foundation, constrained to the player's own land/turtle coordinates, and
compare counts. -/
def arePlayerFoundationsConnected (playerId : String) (board : Board) :
    Option Bool :=
  let allFoundations := allFoundationsOf playerId board
  if allFoundations.length ≤ 1 then some true
  else
    match allFoundations with
    | [] => some true
    | f0 :: _ =>
      (findReachableArea f0 board
        { isValidMove := some (ownFoundationValid playerId) }).map
        (fun reachable => reachable.length = allFoundations.length)

/-! ### A* search (`findPath`) -/

/-- The mutable search state of the A* loop. -/
structure AStarState where
  openSet : List Coordinate
  closedSet : List Coordinate
  gScore : List (Coordinate × Nat)
  fScore : List (Coordinate × Nat)
  cameFrom : List (Coordinate × Coordinate)

/-- `score.get(key) || Infinity`: a missing entry — or a stored `0`, which is
falsy in JS — reads as infinity (`none`). -/
def jsScore (m : List (Coordinate × Nat)) (k : Coordinate) : Option Nat :=
  match coordMapGet m k with
  | some v => if v = 0 then none else some v
  | none => none

/-- The `find node with lowest fScore` scan: first strictly-lowest finite
score in `openSet` iteration order; `none` when every score is infinite. -/
def selectLowest (openSet : List Coordinate) (fScore : List (Coordinate × Nat)) :
    Option Coordinate :=
  (openSet.foldl (fun best key =>
    match jsScore fScore key with
    | none => best
    | some score =>
      match best with
      | none => some (key, score)
      | some bs => if score < bs.2 then some (key, score) else best) none).map
    (fun p => p.1)

/-- The `for (const neighbor of neighbors)` body of the A* loop
(`tentativeGScore = currentG + 1` written inline). -/
def processNeighbor (isValid : Coordinate → Coordinate → Board → Bool)
    (board : Board) (goal current : Coordinate) (currentG : Nat)
    (st : AStarState) (neighbor : Coordinate) : AStarState :=
  if st.closedSet.any (fun d => d = neighbor) then st
  else if !(isValid current neighbor board) then st
  else if !(st.openSet.any (fun d => d = neighbor)) then
    { openSet := st.openSet ++ [neighbor]
      closedSet := st.closedSet
      gScore := coordMapSet st.gScore neighbor (currentG + 1)
      fScore := coordMapSet st.fScore neighbor
        (currentG + 1 + (CoordinateUtils.manhattanDistance neighbor goal).toNat)
      cameFrom := coordMapSet st.cameFrom neighbor current }
  else if (match jsScore st.gScore neighbor with
      | none => false
      | some gN => gN ≤ currentG + 1) then st
  else
    { st with
      gScore := coordMapSet st.gScore neighbor (currentG + 1)
      fScore := coordMapSet st.fScore neighbor
        (currentG + 1 + (CoordinateUtils.manhattanDistance neighbor goal).toNat)
      cameFrom := coordMapSet st.cameFrom neighbor current }

/-- The `while (current)` path-reconstruction loop: walk the `cameFrom`
chain, prepending each coordinate.  `fuel` exceeds the chain length for the
maps the search builds (`gScore` strictly decreases along the chain);
`none` reports the bound was exceeded. -/
def reconstructPath (cameFrom : List (Coordinate × Coordinate)) :
    Nat → Coordinate → List Coordinate → Option (List Coordinate)
  | 0, _, _ => none
  | fuel + 1, current, path =>
    let path := current :: path
    match coordMapGet cameFrom current with
    | some prev => reconstructPath cameFrom fuel prev path
    | none => some path

/-- The `while (openSet.size > 0)` loop of `findPath`.  `fuel` bounds the
iterations (each one moves a fresh key into `closedSet`, and every key lies
in a bounded ball around the start); `none` reports the bound was exceeded.
`selectLowest = none` — every open node scored infinity — cannot happen, as
every inserted key receives a positive `fScore`. -/
def astarLoop (isValid : Coordinate → Coordinate → Board → Bool) (board : Board)
    (goal : Coordinate) (allowDiagonal : Bool) (maxDistance : Nat)
    (includeStart : Bool) : Nat → AStarState → Option PathfindingResult
  | 0, _ => none
  | fuel + 1, st =>
    if st.openSet.isEmpty then
      some { found := false, path := [], distance := 0, explored := st.closedSet }
    else
      match selectLowest st.openSet st.fScore with
      | none => none
      | some currentKey =>
        if currentKey = goal then
          match reconstructPath st.cameFrom (st.cameFrom.length + 1) currentKey [] with
          | none => none
          | some path0 =>
            some { found := true
                   path := if !includeStart && 0 < path0.length then path0.tail else path0
                   distance := (if !includeStart && 0 < path0.length then path0.tail
                     else path0).length
                   explored := st.closedSet }
        else
          if maxDistance ≤ (coordMapGet st.gScore currentKey).getD 0 then
            astarLoop isValid board goal allowDiagonal maxDistance includeStart fuel
              { st with
                openSet := st.openSet.erase currentKey
                closedSet := st.closedSet ++ [currentKey] }
          else
            astarLoop isValid board goal allowDiagonal maxDistance includeStart fuel
              ((neighborsOf allowDiagonal currentKey).foldl
                (processNeighbor isValid board goal currentKey
                  ((coordMapGet st.gScore currentKey).getD 0))
                { st with
                  openSet := st.openSet.erase currentKey
                  closedSet := st.closedSet ++ [currentKey] })

/-- `findPath(start, goal, board, options)`: A* with Manhattan heuristic,
restricted by default to unoccupied foundation tiles. -/
def findPath (start goal : Coordinate) (board : Board)
    (options : PathfindingOptions) : Option PathfindingResult :=
  let maxDistance := options.maxDistance
  let isValid := options.isValidMove.getD
    (fun _src tgt b => b.hasFoundation tgt && !(b.isOccupied tgt))
  if !(board.hasFoundation start) || !(board.hasFoundation goal) then
    some { found := false, path := [], distance := 0, explored := [] }
  else if CoordinateUtils.equals start goal then
    some { found := true, path := if options.includeStart then [start] else []
           distance := 0, explored := [start] }
  else
    astarLoop isValid board goal options.allowDiagonal maxDistance
      options.includeStart ((2 * maxDistance + 1) ^ 2 + 1)
      { openSet := [start], closedSet := [], gScore := [(start, 0)]
        fScore := [(start, (CoordinateUtils.manhattanDistance start goal).toNat)]
        cameFrom := [] }

end PathfindingUtils

/-! ## Water areas (src/lib/game/board/WaterAreaUtils.ts) -/

/-- `interface WaterArea`. -/
structure WaterArea where
  coordinates : List Coordinate
  perimeter : List Coordinate
  size : Nat
  isEnclosed : Bool
deriving DecidableEq, Repr

namespace WaterAreaUtils

/-- The `while (queue.length > 0)` loop of `findConnectedWater`: BFS over
in-window water cells.  `fuel` bounds the pops (at most one per window cell
plus the start); `none` reports the bound was exceeded. -/
def connectedWaterAux (board : Board) (bb : BoundingBox) :
    Nat → List Coordinate → List Coordinate → List Coordinate →
    Option (List Coordinate)
  | _, [], _, connected => some connected
  | 0, _ :: _, _, _ => none
  | fuel + 1, current :: queue, visited, connected =>
    let connected := connected ++ [current]
    let step := (CoordinateUtils.getOrthogonalAdjacent current).foldl
      (fun (vq : List Coordinate × List Coordinate) neighbor =>
        if vq.1.any (fun d => d = neighbor) then vq
        else if neighbor.x < bb.topLeft.x || bb.bottomRight.x < neighbor.x
            || neighbor.y < bb.topLeft.y || bb.bottomRight.y < neighbor.y then vq
        else if board.isWater neighbor then (vq.1 ++ [neighbor], vq.2 ++ [neighbor])
        else vq) (visited, queue)
    connectedWaterAux board bb fuel step.2 step.1 connected

/-- `findConnectedWater(start, board, boundingBox)`. -/
def findConnectedWater (start : Coordinate) (board : Board) (bb : BoundingBox) :
    Option (List Coordinate) :=
  if !(board.isWater start) then some []
  else
    connectedWaterAux board bb
      (((bb.bottomRight.x + 1 - bb.topLeft.x) * (bb.bottomRight.y + 1 - bb.topLeft.y)).toNat + 1)
      [start] [start] []

/-- `getWaterPerimeter(waterCoords, board)`: land tiles orthogonally adjacent
to the area, deduplicated in first-encounter order (a JS `Set`). -/
def getWaterPerimeter (waterCoords : List Coordinate) (board : Board) :
    List Coordinate :=
  waterCoords.foldl (fun perimeter waterCoord =>
    (CoordinateUtils.getOrthogonalAdjacent waterCoord).foldl (fun per neighbor =>
      if board.hasLand neighbor then coordSetAdd per neighbor else per)
      perimeter) []

/-- `isWaterAreaEnclosed(waterCoords, board, boundingBox)`: no member cell on
the window border. -/
def isWaterAreaEnclosed (waterCoords : List Coordinate) (_board : Board)
    (bb : BoundingBox) : Bool :=
  waterCoords.all (fun coord =>
    !(coord.x = bb.topLeft.x || coord.x = bb.bottomRight.x
      || coord.y = bb.topLeft.y || coord.y = bb.bottomRight.y))

/-- `findWaterAreas(board, boundingBox?)`: group the in-window water cells
into connected areas with perimeter and enclosure data. -/
def findWaterAreas (board : Board) (boundingBox : Option BoundingBox) :
    Option (List WaterArea) :=
  let searchArea : BoundingBox :=
    match boundingBox with
    | some bb => bb
    | none =>
      match board.getBoundingBox with
      | none => { topLeft := { x := -5, y := -5 }, bottomRight := { x := 5, y := 5 } }
      | some bounds =>
        { topLeft := { x := bounds.topLeft.x - 3, y := bounds.topLeft.y - 3 }
          bottomRight := { x := bounds.bottomRight.x + 3, y := bounds.bottomRight.y + 3 } }
  let allCoords := Board.getCoordinatesInArea searchArea.topLeft searchArea.bottomRight
  let waterCoords := allCoords.filter (fun coord => board.isWater coord)
  (waterCoords.foldlM (fun (st : List Coordinate × List WaterArea) coord =>
    if st.1.any (fun d => d = coord) then some st
    else
      (findConnectedWater coord board searchArea).map (fun areaCoords =>
        let visited := areaCoords.foldl coordSetAdd st.1
        let perimeter := getWaterPerimeter areaCoords board
        let isEnclosed := isWaterAreaEnclosed areaCoords board searchArea
        (visited, st.2 ++ [{ coordinates := areaCoords, perimeter := perimeter,
                             size := areaCoords.length, isEnclosed := isEnclosed }])))
    ([], [])).map (fun st => st.2)

end WaterAreaUtils

/-! ## Congruence of the reducers in everything but `updatedAt` -/

/-- Forget the `updatedAt` stamp (normalise it to `0`). -/
def stripUpdatedAt (s : GameState) : GameState := { s with updatedAt := 0 }

/-- `applyAction` first overwrites `updatedAt`, so two states that agree on
everything else produce identical results. -/
theorem applyAction_congr (s s' : GameState) (a : GameAction)
    (h : stripUpdatedAt s = stripUpdatedAt s') :
    GameStateDerivation.applyAction s a = GameStateDerivation.applyAction s' a := by
  have hbase : ({ s with updatedAt := a.timestamp } : GameState)
      = { s' with updatedAt := a.timestamp } := by
    have h2 := congrArg (fun t : GameState => { t with updatedAt := a.timestamp }) h
    exact h2
  simp only [GameStateDerivation.applyAction, hbase]

/-- The registry-based `applyAction` likewise only reads the stamped state. -/
theorem applyActionRegistry_congr (reg : ActionRegistry) (s s' : GameState)
    (a : GameAction) (h : stripUpdatedAt s = stripUpdatedAt s') :
    GameStateDerivation.applyActionRegistry reg s a
      = GameStateDerivation.applyActionRegistry reg s' a := by
  have hbase : ({ s with updatedAt := a.timestamp } : GameState)
      = { s' with updatedAt := a.timestamp } := by
    have h2 := congrArg (fun t : GameState => { t with updatedAt := a.timestamp }) h
    exact h2
  simp only [GameStateDerivation.applyActionRegistry, hbase]

/-- Folding the switch-based reducer from two states that differ only in
`updatedAt` keeps the results equal up to `updatedAt`, and exactly equal as
soon as at least one action is applied. -/
theorem foldl_applyAction_congr (as : List GameAction) (s s' : GameState)
    (h : stripUpdatedAt s = stripUpdatedAt s') :
    stripUpdatedAt (as.foldl GameStateDerivation.applyAction s)
      = stripUpdatedAt (as.foldl GameStateDerivation.applyAction s')
    ∧ (as ≠ [] → as.foldl GameStateDerivation.applyAction s
        = as.foldl GameStateDerivation.applyAction s') := by
  cases as with
  | nil => exact ⟨h, fun hne => absurd rfl hne⟩
  | cons a rest =>
    have ha := applyAction_congr s s' a h
    exact ⟨by simp [List.foldl, ha], fun _ => by simp [List.foldl, ha]⟩

/-- Folding the registry-based reducer preserves equality up to `updatedAt`. -/
theorem foldl_applyActionRegistry_strip (reg : ActionRegistry)
    (as : List GameAction) (s s' : GameState)
    (h : stripUpdatedAt s = stripUpdatedAt s') :
    stripUpdatedAt (as.foldl (GameStateDerivation.applyActionRegistry reg) s)
      = stripUpdatedAt (as.foldl (GameStateDerivation.applyActionRegistry reg) s') := by
  cases as with
  | nil => exact h
  | cons a rest =>
    simp only [List.foldl]
    rw [applyActionRegistry_congr reg s s' a h]

/-! ## Fixtures for the concrete claims -/

/-- A small standard configuration. -/
def sampleConfig : GameConfig :=
  { landsPerPlayer := 3, personalPiecesPerPlayer := 4,
    communityPiecesPerPlayer := 2, maxPlayers := 2, gameMode := "standard" }

/-- A sample initial configuration. -/
def sampleInit : InitialGameState :=
  { id := "game1", createdAt := 111, config := sampleConfig,
    hostPlayerId := "p1", joinCode := "ABC123" }

/-- Build an action envelope. -/
def mkAction (ts : Int) (pid : String) (d : ActionData) : GameAction :=
  { id := "act", timestamp := ts, playerId := pid, data := d }

/-- One player joins, then places land at (0,0) and (1,0). -/
def landPlacementLog : List GameAction :=
  [ mkAction 1 "p1" (.joinGame "Alice" none)
  , mkAction 2 "p1" (.placeLand { x := 0, y := 0 } "l1")
  , mkAction 3 "p1" (.placeLand { x := 1, y := 0 } "l2") ]

/-- The state after `landPlacementLog`. -/
def scenarioState : GameState :=
  GameStateDerivation.deriveState sampleInit landPlacementLog 0

/-- A `place-citadel` action by player `p1` at `(x, y)`. -/
def placeCitadelAt (x y : Int) : GameAction :=
  mkAction 4 "p1" (.placeCitadel { x := x, y := y } "c1")

/-- Three lands in an orthogonal chain A–B–C owned by `p1`, with `p1`'s
builder adjacent to the middle land B. -/
def chainState : GameState :=
  { id := "game1", createdAt := 0, updatedAt := 0, phase := .battle,
    config := sampleConfig, players := [], currentPlayerId := some "p1",
    lands := [ { id := "lA", position := { x := 0, y := 0 }, ownerId := some "p1" }
             , { id := "lB", position := { x := 1, y := 0 }, ownerId := some "p1" }
             , { id := "lC", position := { x := 2, y := 0 }, ownerId := some "p1" } ],
    pieces := [ { id := "b1", type := "builder", ownerId := "p1",
                  position := some { x := 1, y := 1 } } ],
    citadels := [], graveyard := [], communityPool := [], winnerId := none }

/-- `builder-remove-land` on the middle land B of the chain. -/
def removeMiddle : GameAction :=
  mkAction 5 "p1" (.builderRemoveLand "b1" "lB" { x := 1, y := 0 })

/-! ## C1 — determinism of `deriveState`

The claim asserts the result of `deriveState(init, A)` — `updatedAt`
included — does not depend on the wall clock.  The base state is stamped
`updatedAt: Date.now()`, so for the empty action list the result does depend
on the clock; any applied action overwrites the stamp with its own
timestamp, after which the derivation is clock-independent. -/

/-- C1 counterexample: `deriveState(init, [])` evaluated at wall-clock `0`
and at wall-clock `1` yields different states (they differ in `updatedAt`),
so the output is not independent of the wall-clock time. -/
theorem C1_counterexample :
    GameStateDerivation.deriveState sampleInit [] 0
      ≠ GameStateDerivation.deriveState sampleInit [] 1 := by decide

/-- C1 (amended): `deriveState(init, A)` is clock-independent in every field
except `updatedAt`; when `A` is non-empty the results are fully deep-equal
(the final `updatedAt` is the last action's timestamp, not the clock). -/
theorem C1_determinism_amended (init : InitialGameState) (A : List GameAction)
    (now₁ now₂ : Int) :
    stripUpdatedAt (GameStateDerivation.deriveState init A now₁)
      = stripUpdatedAt (GameStateDerivation.deriveState init A now₂)
    ∧ (A ≠ [] → GameStateDerivation.deriveState init A now₁
        = GameStateDerivation.deriveState init A now₂) := by
  unfold GameStateDerivation.deriveState
  exact foldl_applyAction_congr A _ _ rfl

/-- C1 amended, witnessed at a concrete non-empty log: the two derivations
are fully equal whatever the clock reads. -/
theorem C1_determinism_amended_witness :
    GameStateDerivation.deriveState sampleInit [mkAction 5 "p1" .startGame] 0
      = GameStateDerivation.deriveState sampleInit [mkAction 5 "p1" .startGame] 99 :=
  (C1_determinism_amended sampleInit [mkAction 5 "p1" .startGame] 0 99).2 (by decide)

/-! ## C2 — the citadel-placement scenario

The claim (and spec §8) expects `place-citadel{0,1}` — orthogonally adjacent
to the owned land at (0,0) — to succeed.  `handlePlaceCitadel` and
`validatePlaceCitadel` instead require the acting player's own land *at* the
target position, so (0,1) is rejected exactly like (5,5), with the reason
`'No land at that position'` (not an adjacency reason). -/

/-- C2 counterexample: in the scenario state, applying `place-citadel{0,1}`
adds nothing to `state.citadels` — the placement the claim calls successful
is a no-op. -/
theorem C2_counterexample :
    (GameStateDerivation.applyAction scenarioState (placeCitadelAt 0 1)).citadels
      = [] := by decide

/-- C2 (amended): `place-citadel` succeeds only on the player's own land:
at (0,0) the citadel is added; at (0,1) and (5,5) the handler returns the
state unchanged (except the stamp) and the validator rejects with
`'No land at that position'`. -/
theorem C2_placement_scenario_amended :
    (GameStateDerivation.applyAction scenarioState (placeCitadelAt 0 0)).citadels
      = [{ id := "c1", position := { x := 0, y := 0 }, ownerId := "p1" }]
    ∧ GameStateDerivation.applyAction scenarioState (placeCitadelAt 0 1)
        = { scenarioState with updatedAt := 4 }
    ∧ GameStateDerivation.applyAction scenarioState (placeCitadelAt 5 5)
        = { scenarioState with updatedAt := 4 }
    ∧ CoreActionHandlers.validatePlaceCitadel
        { scenarioState with phase := .citadelPlacement } (placeCitadelAt 0 1)
        = Sum.inr "No land at that position"
    ∧ CoreActionHandlers.validatePlaceCitadel
        { scenarioState with phase := .citadelPlacement } (placeCitadelAt 5 5)
        = Sum.inr "No land at that position" := by
  exact ⟨by decide, by decide, by decide, by decide, by decide⟩

/-! ## C3 — the disconnection guard that is not there

`validateRemoveLand` checks builder existence and adjacency only; the
connectivity check is a `TODO` comment in the source.  Removing the middle
land B of the chain A–B–C is therefore *accepted* (`true`), although the
removal disconnects A from C. -/

/-- C3: at the chain state, `validateRemoveLand` accepts removing B
(returns `true`, not a reason), the player's foundations being connected
before the removal and disconnected after it. -/
theorem C3_validateRemoveLand_accepts_disconnection :
    BuilderPiece.validateRemoveLand chainState removeMiddle = Sum.inl true
    ∧ PathfindingUtils.arePlayerFoundationsConnected "p1"
        (Board.new chainState.lands chainState.pieces chainState.citadels)
        = some true
    ∧ PathfindingUtils.arePlayerFoundationsConnected "p1"
        (Board.new (BuilderPiece.handleRemoveLand chainState removeMiddle).lands
          (BuilderPiece.handleRemoveLand chainState removeMiddle).pieces
          (BuilderPiece.handleRemoveLand chainState removeMiddle).citadels)
        = some false := by
  exact ⟨by decide, by decide, by decide⟩

/-! ## C4 — unknown action kinds are tolerated -/

/-- C4: an action whose kind has no registered handler only refreshes the
`updatedAt` stamp (the missing-handler exception is caught, not fatal), and
a log containing one such action derives the same state as the log without
it, up to `updatedAt`. -/
theorem C4_unknown_kind_tolerated (reg : ActionRegistry) (init : InitialGameState)
    (B C : List GameAction) (u : GameAction) (now : Int)
    (hu : ActionRegistry.getHandler reg u.data.kind = none) :
    (∀ s : GameState, GameStateDerivation.applyActionRegistry reg s u
        = { s with updatedAt := u.timestamp })
    ∧ stripUpdatedAt (GameStateDerivation.deriveStateRegistry reg init (B ++ u :: C) now)
        = stripUpdatedAt (GameStateDerivation.deriveStateRegistry reg init (B ++ C) now) := by
  have happly : ∀ s : GameState, GameStateDerivation.applyActionRegistry reg s u
      = { s with updatedAt := u.timestamp } := by
    intro s
    simp only [GameStateDerivation.applyActionRegistry, ActionRegistry.applyAction, hu]
    rfl
  refine ⟨happly, ?_⟩
  unfold GameStateDerivation.deriveStateRegistry
  rw [List.foldl_append, List.foldl_append, List.foldl_cons, happly]
  exact foldl_applyActionRegistry_strip reg C _ _ rfl

/-- C4 witnessed on the core registry with an unregistered kind spliced into
a concrete log. -/
theorem C4_unknown_kind_tolerated_witness :
    stripUpdatedAt (GameStateDerivation.deriveStateRegistry coreRegistry sampleInit
        ([mkAction 1 "p1" (.joinGame "Alice" none)]
          ++ mkAction 2 "p1" (.otherKind "teleport") :: [mkAction 3 "p1" .startGame]) 0)
      = stripUpdatedAt (GameStateDerivation.deriveStateRegistry coreRegistry sampleInit
          ([mkAction 1 "p1" (.joinGame "Alice" none)]
            ++ [mkAction 3 "p1" .startGame]) 0) :=
  (C4_unknown_kind_tolerated coreRegistry sampleInit
    [mkAction 1 "p1" (.joinGame "Alice" none)] [mkAction 3 "p1" .startGame]
    (mkAction 2 "p1" (.otherKind "teleport")) 0 rfl).2

/-! ## C7 — replay monotonicity -/

/-- C7: deriving a prefix and folding the remaining suffix over it equals
deriving the whole log (at the same ambient clock reading; the clock only
ever affects the `updatedAt` of the zero-action state, see C1). -/
theorem C7_replay_monotonicity (init : InitialGameState) (A : List GameAction)
    (k : Nat) (now : Int) (hk : k ≤ A.length) :
    (A.drop k).foldl GameStateDerivation.applyAction
        (GameStateDerivation.deriveState init (A.take k) now)
      = GameStateDerivation.deriveState init A now := by
  unfold GameStateDerivation.deriveState
  rw [← List.foldl_append, List.take_append_drop]

/-- C7 witnessed at a two-action log split at `k = 1`. -/
theorem C7_replay_monotonicity_witness :
    (([mkAction 1 "p1" (.joinGame "Alice" none), mkAction 2 "p1" .startGame].drop 1).foldl
        GameStateDerivation.applyAction
        (GameStateDerivation.deriveState sampleInit
          ([mkAction 1 "p1" (.joinGame "Alice" none), mkAction 2 "p1" .startGame].take 1) 0))
      = GameStateDerivation.deriveState sampleInit
          [mkAction 1 "p1" (.joinGame "Alice" none), mkAction 2 "p1" .startGame] 0 :=
  C7_replay_monotonicity sampleInit
    [mkAction 1 "p1" (.joinGame "Alice" none), mkAction 2 "p1" .startGame] 1 0 (by decide)

/-! ## C10 — duplicate `join-game` entries are idempotent -/

/-- C10: a `join-game` whose `playerId` is already present leaves the
players collection unchanged, and applying the same `join-game` action twice
equals applying it once (exactly — the second application re-stamps the same
timestamp). -/
theorem C10_join_idempotent (s : GameState) (j : GameAction)
    (playerName : String) (artSetId : Option String)
    (hj : j.data = .joinGame playerName artSetId) :
    ((s.players.any (fun p => p.id = j.playerId)) = true →
        (GameStateDerivation.applyAction s j).players = s.players)
    ∧ GameStateDerivation.applyAction (GameStateDerivation.applyAction s j) j
        = GameStateDerivation.applyAction s j := by
  obtain ⟨aid, ts, pid, d⟩ := j
  simp only at hj
  subst hj
  simp only [GameStateDerivation.applyAction, CoreActionHandlers.handleJoinGame]
  constructor
  · intro hmem
    rcases List.any_eq_true.mp hmem with ⟨p, hp, hpid⟩
    rw [if_pos (List.find?_isSome.mpr ⟨p, hp, hpid⟩)]
  · by_cases hfind : (s.players.find? (fun p => (p.id = pid : Bool))).isSome = true
    · rw [if_pos hfind, if_pos hfind]
    · rw [if_neg hfind, if_pos]
      apply List.find?_isSome.mpr
      refine ⟨{ id := pid, name := playerName, artSetId := artSetId, isHost := false,
                personalStash := [], turnOrder := s.players.length },
        List.mem_append_right _ (List.mem_singleton.mpr rfl), by simp⟩

/-! ## C8 — key round-trip -/

/-- C8: the canonical `"x,y"` key round-trips: for every coordinate `c` with
integer components, `fromKey(toKey(c)) = c`. -/
theorem C8_fromKey_toKey_roundtrip (c : Coordinate) :
    CoordinateUtils.fromKey (CoordinateUtils.toKey c) = c :=
  CoordinateUtils.fromKey_toKey c

/-! ## C9 — water-area enclosure -/

/-- The complete 3×3 ring of lands around the single water cell (0,0). -/
def ringLands : List Land :=
  [ { id := "r1", position := { x := -1, y := -1 }, ownerId := none }
  , { id := "r2", position := { x := 0, y := -1 }, ownerId := none }
  , { id := "r3", position := { x := 1, y := -1 }, ownerId := none }
  , { id := "r4", position := { x := -1, y := 0 }, ownerId := none }
  , { id := "r5", position := { x := 1, y := 0 }, ownerId := none }
  , { id := "r6", position := { x := -1, y := 1 }, ownerId := none }
  , { id := "r7", position := { x := 0, y := 1 }, ownerId := none }
  , { id := "r8", position := { x := 1, y := 1 }, ownerId := none } ]

/-- The ring board. -/
def ringBoard : Board := Board.new ringLands [] []

/-- The ring with the edge tile at (0,-1) missing. -/
def brokenRingBoard : Board :=
  Board.new (ringLands.filter (fun l => !(l.id = "r2"))) [] []

/-- C9: on the complete ring, the water area containing (0,0) is reported
with `isEnclosed = true`; with the edge tile (0,-1) removed, the (unique)
area containing (0,0) is reported with `isEnclosed = false`. -/
theorem C9_area_enclosure :
    (WaterAreaUtils.findWaterAreas ringBoard none).map (fun areas =>
        areas.filterMap (fun a =>
          if a.coordinates.any (fun c => c = { x := 0, y := 0 }) then
            some a.isEnclosed
          else none))
      = some [true]
    ∧ (WaterAreaUtils.findWaterAreas brokenRingBoard none).map (fun areas =>
        areas.filterMap (fun a =>
          if a.coordinates.any (fun c => c = { x := 0, y := 0 }) then
            some a.isEnclosed
          else none))
      = some [false] := by
  set_option maxRecDepth 8000 in
  exact ⟨by decide, by decide⟩

/-! ## C6 — soundness of `findPath`

Every `cameFrom` entry `(k, p)` records that `k` was reached as a valid
neighbour of `p`; the reconstructed path is the `cameFrom` chain, so its
consecutive pairs are adjacent under the configured neighbourhood and each
step satisfies the traversal predicate. -/

/-- The invariant of the `cameFrom` map: every recorded edge is a valid step. -/
def cameFromInv (ad : Bool) (isValid : Coordinate → Coordinate → Board → Bool)
    (board : Board) (cameFrom : List (Coordinate × Coordinate)) : Prop :=
  ∀ p ∈ cameFrom, p.1 ∈ PathfindingUtils.neighborsOf ad p.2
    ∧ isValid p.2 p.1 board = true

/-- Entries of `coordMapSet m k v` are `(k, v)` or entries of `m`. -/
theorem mem_coordMapSet {α : Type} {m : List (Coordinate × α)} {k : Coordinate}
    {v : α} {p : Coordinate × α} (hp : p ∈ coordMapSet m k v) :
    p = (k, v) ∨ p ∈ m := by
  unfold coordMapSet at hp
  split at hp
  · rcases List.mem_map.mp hp with ⟨q, hq, hqe⟩
    by_cases h : q.1 = k
    · rw [if_pos h] at hqe
      exact Or.inl hqe.symm
    · rw [if_neg h] at hqe
      exact Or.inr (hqe ▸ hq)
  · rcases List.mem_append.mp hp with h | h
    · exact Or.inr h
    · exact Or.inl (List.mem_singleton.mp h)

/-- A successful `coordMapGet` exhibits a member with the looked-up key. -/
theorem coordMapGet_mem {α : Type} {m : List (Coordinate × α)} {k : Coordinate}
    {v : α} (h : coordMapGet m k = some v) : (k, v) ∈ m := by
  unfold coordMapGet at h
  rcases hfind : m.find? (fun p => p.1 = k) with _ | q
  · rw [hfind] at h
    cases h
  · rw [hfind] at h
    have hq := List.find?_some hfind
    have hmem := List.mem_of_find?_eq_some hfind
    have hk : q.1 = k := by simpa using hq
    have hv : q.2 = v := by simpa using h
    have : q = (k, v) := Prod.ext hk hv
    exact this ▸ hmem

/-- `processNeighbor` preserves the `cameFrom` invariant when the neighbour
really is one of the current node's neighbours. -/
theorem processNeighbor_inv {isValid : Coordinate → Coordinate → Board → Bool}
    {board : Board} {goal current neighbor : Coordinate} {currentG : Nat}
    {st : PathfindingUtils.AStarState} {ad : Bool}
    (hst : cameFromInv ad isValid board st.cameFrom)
    (hn : neighbor ∈ PathfindingUtils.neighborsOf ad current) :
    cameFromInv ad isValid board
      (PathfindingUtils.processNeighbor isValid board goal current currentG
        st neighbor).cameFrom := by
  unfold PathfindingUtils.processNeighbor
  split
  · exact hst
  · split
    · exact hst
    · rename_i hvalid
      have hval : isValid current neighbor board = true := by
        revert hvalid
        cases isValid current neighbor board <;> simp
      split
      · intro p hp
        rcases mem_coordMapSet hp with rfl | hpm
        · exact ⟨hn, hval⟩
        · exact hst p hpm
      · by_cases hskip : (match PathfindingUtils.jsScore st.gScore neighbor with
            | none => false
            | some gN => (gN ≤ currentG + 1 : Bool)) = true
        · rw [if_pos hskip]
          exact hst
        · rw [if_neg hskip]
          intro p hp
          rcases mem_coordMapSet hp with rfl | hpm
          · exact ⟨hn, hval⟩
          · exact hst p hpm

/-- Folding `processNeighbor` over (a sublist of) the current node's
neighbour list preserves the `cameFrom` invariant. -/
theorem foldl_processNeighbor_inv {isValid : Coordinate → Coordinate → Board → Bool}
    {board : Board} {goal current : Coordinate} {currentG : Nat} {ad : Bool}
    (l : List Coordinate) (st : PathfindingUtils.AStarState)
    (hl : ∀ n ∈ l, n ∈ PathfindingUtils.neighborsOf ad current)
    (hst : cameFromInv ad isValid board st.cameFrom) :
    cameFromInv ad isValid board
      ((l.foldl (PathfindingUtils.processNeighbor isValid board goal current currentG)
        st).cameFrom) := by
  induction l generalizing st with
  | nil => exact hst
  | cons n rest ih =>
    exact ih _ (fun m hm => hl m (List.mem_cons_of_mem n hm))
      (processNeighbor_inv hst (hl n (List.mem_cons_self n rest)))

/-- A reconstructed path is a chain of recorded `cameFrom` edges. -/
theorem reconstructPath_chain {ad : Bool}
    {isValid : Coordinate → Coordinate → Board → Bool} {board : Board}
    {cameFrom : List (Coordinate × Coordinate)}
    (hinv : cameFromInv ad isValid board cameFrom) :
    ∀ (fuel : Nat) (current : Coordinate) (acc l : List Coordinate),
      List.Chain' (fun a b => b ∈ PathfindingUtils.neighborsOf ad a
        ∧ isValid a b board = true) (current :: acc) →
      PathfindingUtils.reconstructPath cameFrom fuel current acc = some l →
      List.Chain' (fun a b => b ∈ PathfindingUtils.neighborsOf ad a
        ∧ isValid a b board = true) l := by
  intro fuel
  induction fuel with
  | zero => intro current acc l _ h; cases h
  | succ fuel ih =>
    intro current acc l hchain h
    unfold PathfindingUtils.reconstructPath at h
    rcases hget : coordMapGet cameFrom current with _ | prev
    · rw [hget] at h
      cases h
      exact hchain
    · rw [hget] at h
      have hmem := coordMapGet_mem hget
      have hedge := hinv (current, prev) hmem
      exact ih prev (current :: acc) l (List.Chain'.cons hedge hchain) h

/-- If the A* loop returns a found result, its path is a chain of valid,
adjacent steps (the `cameFrom` chain, with the start possibly dropped). -/
theorem astarLoop_sound {isValid : Coordinate → Coordinate → Board → Bool}
    {board : Board} {goal : Coordinate} {ad : Bool} {maxD : Nat} {incl : Bool} :
    ∀ (fuel : Nat) (st : PathfindingUtils.AStarState),
      cameFromInv ad isValid board st.cameFrom →
      ∀ r, PathfindingUtils.astarLoop isValid board goal ad maxD incl fuel st = some r →
        r.found = true →
        List.Chain' (fun a b => b ∈ PathfindingUtils.neighborsOf ad a
          ∧ isValid a b board = true) r.path := by
  intro fuel
  induction fuel with
  | zero => intro st _ r h; cases h
  | succ fuel ih =>
    intro st hinv r h hfound
    unfold PathfindingUtils.astarLoop at h
    split at h
    · cases h
      cases hfound
    · split at h
      · cases h
      · rename_i currentKey _
        split at h
        · split at h
          · cases h
          · rename_i path0 hrec
            cases h
            simp only
            split
            · exact List.Chain'.tail
                (reconstructPath_chain hinv _ currentKey [] path0 (by simp) hrec)
            · exact reconstructPath_chain hinv _ currentKey [] path0 (by simp) hrec
        · split at h
          · exact ih
              { openSet := st.openSet.erase currentKey
                closedSet := st.closedSet ++ [currentKey]
                gScore := st.gScore
                fScore := st.fScore
                cameFrom := st.cameFrom }
              (fun p hp => hinv p hp) r h hfound
          · refine ih _ ?_ r h hfound
            exact foldl_processNeighbor_inv _ _ (fun n hn => hn) (fun p hp => hinv p hp)

/-- C6: whenever `findPath` reports `found = true`, every pair of
consecutive coordinates of the returned path is adjacent under the
configured neighbourhood *and* a step the traversal predicate accepts
(by default: the target has a foundation and is unoccupied); in particular
every coordinate of the path after the start satisfies the predicate. -/
theorem C6_path_soundness (start goal : Coordinate) (board : Board)
    (options : PathfindingOptions) (r : PathfindingResult)
    (h : PathfindingUtils.findPath start goal board options = some r)
    (hfound : r.found = true) :
    List.Chain' (fun a b => b ∈ PathfindingUtils.neighborsOf options.allowDiagonal a
      ∧ (options.isValidMove.getD
          (fun _src tgt b => b.hasFoundation tgt && !(b.isOccupied tgt))) a b board
        = true) r.path := by
  unfold PathfindingUtils.findPath at h
  split at h
  · cases h
    cases hfound
  · split at h
    · cases h
      simp only
      split <;> simp
    · exact astarLoop_sound _ _ (fun p hp => absurd hp (List.not_mem_nil p)) r h hfound

/-! ## C5 — the player-foundation connectivity predicate

Code side: `arePlayerFoundationsConnected` compares the size of a bounded
BFS flood fill against the owned-foundation count.  Spec side, following the
claim's words: a flood fill starting from one owned foundation coordinate,
restricted to coordinates holding the player's own Land or turtle, reaches
every owned foundation coordinate — stated as the reflexive-transitive
closure of single steps. -/

/-- Does coordinate `c` hold the player's own Land or turtle? -/
def ownsFoundationAt (playerId : String) (board : Board) (c : Coordinate) : Bool :=
  ((board.getLand c).map (fun land => (land.ownerId = some playerId : Bool))).getD false
  || ((board.getTurtle c).map (fun t => (t.ownerId = playerId : Bool))).getD false

/-- One step of a flood fill restricted by a membership test: move to an
orthogonally adjacent coordinate accepted by `valid`. -/
def validStep (valid : Coordinate → Bool) (a b : Coordinate) : Prop :=
  b ∈ CoordinateUtils.getOrthogonalAdjacent a ∧ valid b = true

/-- One flood-fill step of the claim: an orthogonal move onto the player's
own Land or turtle. -/
def ownedStep (playerId : String) (board : Board) : Coordinate → Coordinate → Prop :=
  validStep (ownsFoundationAt playerId board)

/-- The claim's connectivity predicate (`foundationsConnectedSpec`): either
the player owns at most one foundation coordinate, or the flood fill from
the first owned foundation coordinate reaches every owned one. -/
def foundationsConnectedSpec (playerId : String) (board : Board) : Prop :=
  (PathfindingUtils.allFoundationsOf playerId board).length ≤ 1
  ∨ ∀ f0 ∈ (PathfindingUtils.allFoundationsOf playerId board).head?,
      ∀ c ∈ PathfindingUtils.allFoundationsOf playerId board,
        Relation.ReflTransGen (ownedStep playerId board) f0 c

/-- The loop invariant of the `findReachableArea` BFS, for a validity test
that depends only on the target coordinate. -/
structure ReachInv (valid : Coordinate → Bool) (start : Coordinate)
    (queue : List (Coordinate × Nat)) (visited acc : List Coordinate) : Prop where
  hsplit : visited = acc ++ queue.map Prod.fst
  hnodup : visited.Nodup
  hmem : ∀ c ∈ visited, c = start ∨ valid c = true
  hlabel : ∀ q ∈ queue, q.2 + 1 ≤ visited.length
  hreach : ∀ c ∈ visited, Relation.ReflTransGen (validStep valid) start c
  hclosed : ∀ c ∈ acc, ∀ n ∈ CoordinateUtils.getOrthogonalAdjacent c,
    valid n = true → n ∈ visited

/-- Folding `reachStep` over the neighbour list appends exactly the fresh
valid neighbours to both the visited set and the queue (labelled `d + 1`). -/
theorem reachStep_foldl {isValid : Coordinate → Coordinate → Board → Bool}
    {board : Board} {valid : Coordinate → Bool}
    (hiv : ∀ a b, isValid a b board = valid b)
    (d : Nat) (current : Coordinate) (ns : List Coordinate) :
    ∀ v₀ q₀, ∃ fresh : List Coordinate,
      ns.foldl (PathfindingUtils.reachStep isValid board current d) (v₀, q₀)
        = (v₀ ++ fresh, q₀ ++ fresh.map (fun c => (c, d + 1)))
      ∧ fresh.Nodup
      ∧ (∀ c ∈ fresh, c ∉ v₀ ∧ valid c = true ∧ c ∈ ns)
      ∧ (∀ n ∈ ns, valid n = true → n ∈ v₀ ++ fresh) := by
  induction ns with
  | nil =>
    intro v₀ q₀
    exact ⟨[], by simp, List.nodup_nil, by simp, by simp⟩
  | cons n rest ih =>
    intro v₀ q₀
    by_cases hv : (v₀.any (fun x => x = n)) = true
    · have hstep : PathfindingUtils.reachStep isValid board current d (v₀, q₀) n
          = (v₀, q₀) := by
        unfold PathfindingUtils.reachStep
        rw [if_pos hv]
      have hnmem : n ∈ v₀ := by
        rcases List.any_eq_true.mp hv with ⟨x, hx, hxe⟩
        have : x = n := by simpa using hxe
        exact this ▸ hx
      obtain ⟨fresh, heq, hnd, hfr, hcov⟩ := ih v₀ q₀
      refine ⟨fresh, by simpa [hstep] using heq, hnd,
        fun c hc => ⟨(hfr c hc).1, (hfr c hc).2.1,
          List.mem_cons_of_mem n (hfr c hc).2.2⟩, ?_⟩
      intro m hm hval
      rcases List.mem_cons.mp hm with rfl | hm
      · exact List.mem_append_left _ hnmem
      · exact hcov m hm hval
    · by_cases hval : valid n = true
      · have hstep : PathfindingUtils.reachStep isValid board current d (v₀, q₀) n
            = (v₀ ++ [n], q₀ ++ [(n, d + 1)]) := by
          unfold PathfindingUtils.reachStep
          rw [if_neg hv, if_pos (by rw [hiv]; exact hval)]
      -- continue the fold from the extended state
        obtain ⟨fresh, heq, hnd, hfr, hcov⟩ := ih (v₀ ++ [n]) (q₀ ++ [(n, d + 1)])
        have hnn : n ∉ v₀ := fun hmem =>
          hv (List.any_eq_true.mpr ⟨n, hmem, by simp⟩)
        refine ⟨n :: fresh, ?_, ?_, ?_, ?_⟩
        · rw [List.foldl_cons, hstep, heq]
          simp
        · refine List.Nodup.cons (fun hmem => ?_) hnd
          exact (hfr n hmem).1 (List.mem_append_right _ (List.mem_singleton.mpr rfl))
        · intro c hc
          rcases List.mem_cons.mp hc with rfl | hc
          · exact ⟨hnn, hval, List.mem_cons_self c rest⟩
          · have h1 := (hfr c hc).1
            exact ⟨fun hmem => h1 (List.mem_append_left _ hmem), (hfr c hc).2.1,
              List.mem_cons_of_mem n (hfr c hc).2.2⟩
        · intro m hm hmv
          rcases List.mem_cons.mp hm with rfl | hm
          · exact List.mem_append_right _ (List.mem_cons_self m fresh)
          · have := hcov m hm hmv
            rcases List.mem_append.mp this with h1 | h2
            · rcases List.mem_append.mp h1 with h1a | h1b
              · exact List.mem_append_left _ h1a
              · exact List.mem_append_right _
                  (List.mem_singleton.mp h1b ▸ List.mem_cons_self n fresh)
            · exact List.mem_append_right _ (List.mem_cons_of_mem n h2)
      · have hstep : PathfindingUtils.reachStep isValid board current d (v₀, q₀) n
            = (v₀, q₀) := by
          unfold PathfindingUtils.reachStep
          rw [if_neg hv, if_neg (by rw [hiv]; exact hval)]
        obtain ⟨fresh, heq, hnd, hfr, hcov⟩ := ih v₀ q₀
        refine ⟨fresh, by simpa [hstep] using heq, hnd,
          fun c hc => ⟨(hfr c hc).1, (hfr c hc).2.1,
            List.mem_cons_of_mem n (hfr c hc).2.2⟩, ?_⟩
        intro m hm hmv
        rcases List.mem_cons.mp hm with rfl | hm
        · rw [hmv] at hval
          exact absurd rfl hval
        · exact hcov m hm hmv

/-- Correctness of the bounded BFS under the invariant: with enough fuel and
a cap at least the size of the valid universe, the loop returns the visited
set — a nodup, sound and step-closed superset of the initial visited set. -/
theorem reachAux_correct {isValid : Coordinate → Coordinate → Board → Bool}
    {board : Board} {valid : Coordinate → Bool} {U : List Coordinate}
    {start : Coordinate} {maxD : Nat}
    (hiv : ∀ a b, isValid a b board = valid b)
    (hUnodup : U.Nodup) (hUvalid : ∀ c, valid c = true → c ∈ U)
    (hstartU : start ∈ U) (hmax : U.length ≤ maxD) :
    ∀ (fuel : Nat) (queue : List (Coordinate × Nat)) (visited acc : List Coordinate),
      ReachInv valid start queue visited acc →
      queue.length + (U.length - visited.length) < fuel →
      ∃ r, PathfindingUtils.reachAux isValid board false maxD fuel queue visited acc
          = some r
        ∧ r.Nodup
        ∧ (∀ c ∈ r, c = start ∨ valid c = true)
        ∧ (∀ c ∈ r, Relation.ReflTransGen (validStep valid) start c)
        ∧ (∀ c ∈ r, ∀ n, validStep valid c n → n ∈ r)
        ∧ (∀ c ∈ visited, c ∈ r) := by
  intro fuel
  induction fuel with
  | zero =>
    intro queue visited acc _ hfuel
    exact absurd hfuel (by omega)
  | succ fuel ih =>
    intro queue visited acc hinv hfuel
    have hsub : visited ⊆ U := by
      intro c hc
      rcases hinv.hmem c hc with rfl | hval
      · exact hstartU
      · exact hUvalid c hval
    have hlen : visited.length ≤ U.length :=
      (List.subperm_of_subset hinv.hnodup hsub).length_le
    match queue with
    | [] =>
      have hva : visited = acc := by simpa using hinv.hsplit
      refine ⟨acc, rfl, hva ▸ hinv.hnodup, hva ▸ hinv.hmem, hva ▸ hinv.hreach,
        ?_, fun c hc => hva ▸ hc⟩
      intro c hc n hn
      exact hva ▸ hinv.hclosed c hc n hn.1 hn.2
    | (current, d) :: rest =>
      have hcur : current ∈ visited := by
        rw [hinv.hsplit]
        exact List.mem_append_right _ (by simp)
      have hd : d + 1 ≤ visited.length :=
        hinv.hlabel (current, d) (List.mem_cons_self _ _)
      have hcap : ¬(maxD ≤ d) := by omega
      obtain ⟨fresh, heq, hfnd, hfr, hcov⟩ :=
        reachStep_foldl hiv d current
          (PathfindingUtils.neighborsOf false current) visited rest
      have hfreshU : ∀ c ∈ fresh, c ∈ U := fun c hc => hUvalid c (hfr c hc).2.1
      have hnodup' : (visited ++ fresh).Nodup := by
        rw [List.nodup_append]
        exact ⟨hinv.hnodup, hfnd, fun a ha hb => (hfr a hb).1 ha⟩
      have hlen' : (visited ++ fresh).length ≤ U.length :=
        (List.subperm_of_subset hnodup' (fun c hc => by
          rcases List.mem_append.mp hc with h | h
          · exact hsub h
          · exact hfreshU c h)).length_le
      have hinv' : ReachInv valid start (rest ++ fresh.map (fun c => (c, d + 1)))
          (visited ++ fresh) (acc ++ [current]) := by
        refine ⟨?_, hnodup', ?_, ?_, ?_, ?_⟩
        · have hmapfst : ∀ l : List Coordinate,
              (l.map (fun c => (c, d + 1))).map Prod.fst = l := by
            intro l
            induction l with
            | nil => rfl
            | cons a t iht => simp [iht]
          rw [hinv.hsplit, List.map_append, hmapfst]
          simp [List.map_cons, List.append_assoc]
        · intro c hc
          rcases List.mem_append.mp hc with h | h
          · exact hinv.hmem c h
          · exact Or.inr (hfr c h).2.1
        · intro q hq
          rcases List.mem_append.mp hq with h | h
          · have := hinv.hlabel q (List.mem_cons_of_mem _ h)
            simp only [List.length_append]
            omega
          · rcases List.mem_map.mp h with ⟨c, hc, rfl⟩
            have hne : fresh ≠ [] := fun hnil => by
              rw [hnil] at hc
              exact absurd hc (List.not_mem_nil c)
            have : 1 ≤ fresh.length := by
              cases fresh with
              | nil => exact absurd rfl hne
              | cons a l => simp
            simp only [List.length_append]
            omega
        · intro c hc
          rcases List.mem_append.mp hc with h | h
          · exact hinv.hreach c h
          · exact Relation.ReflTransGen.tail (hinv.hreach current hcur)
              ⟨(hfr c h).2.2, (hfr c h).2.1⟩
        · intro c hc n hn hnv
          rcases List.mem_append.mp hc with h | h
          · exact List.mem_append_left _ (hinv.hclosed c h n hn hnv)
          · have hcc : c = current := List.mem_singleton.mp h
            subst hcc
            exact hcov n hn hnv
      have hfuel' : (rest ++ fresh.map (fun c => (c, d + 1))).length
          + (U.length - (visited ++ fresh).length) < fuel := by
        have h1 : ((current, d) :: rest).length = rest.length + 1 := by simp
        have h2 : (visited ++ fresh).length = visited.length + fresh.length := by simp
        have h3 : (rest ++ fresh.map (fun c => (c, d + 1))).length
            = rest.length + fresh.length := by simp
        rw [h2] at hlen'
        rw [h1] at hfuel
        rw [h2, h3]
        omega
      obtain ⟨r, hr, h1, h2, h3, h4, h5⟩ := ih _ _ _ hinv' hfuel'
      refine ⟨r, ?_, h1, h2, h3, h4,
        fun c hc => h5 c (List.mem_append_left _ hc)⟩
      show PathfindingUtils.reachAux isValid board false maxD (fuel + 1)
        ((current, d) :: rest) visited acc = some r
      rw [PathfindingUtils.reachAux]
      rw [if_neg hcap, heq]
      exact hr

/-- A board well-formed in the sense every constructed `Board` satisfies:
layer maps have pairwise-distinct keys and each stored entity sits at its
key coordinate. -/
structure BoardWF (board : Board) : Prop where
  landKeyNodup : (board.landMap.map Prod.fst).Nodup
  turtleKeyNodup : (board.turtleMap.map Prod.fst).Nodup
  landPos : ∀ p ∈ board.landMap, p.2.position = p.1
  turtlePos : ∀ p ∈ board.turtleMap, p.2.position = some p.1

/-- With pairwise-distinct keys, membership determines the `find?` result. -/
theorem find?_eq_of_nodup_keys {α : Type} {m : List (Coordinate × α)}
    {k : Coordinate} {v : α} (hnd : (m.map Prod.fst).Nodup)
    (hmem : (k, v) ∈ m) :
    m.find? (fun p => p.1 = k) = some (k, v) := by
  induction m with
  | nil => cases hmem
  | cons q rest ih =>
    rcases List.mem_cons.mp hmem with rfl | hmem'
    · exact List.find?_cons_of_pos _ (by simp)
    · have hk : q.1 ≠ k := by
        intro hqk
        have : k ∈ rest.map Prod.fst := List.mem_map.mpr ⟨(k, v), hmem', rfl⟩
        rw [List.map_cons, hqk] at hnd
        exact (List.nodup_cons.mp hnd).1 this
      rw [List.find?_cons_of_neg _ (by simpa using hk)]
      exact ih (by rw [List.map_cons] at hnd; exact (List.nodup_cons.mp hnd).2) hmem'

/-- Under well-formedness, the flood-fill validity test accepts exactly the
owned foundation coordinates. -/
theorem ownsFoundationAt_iff_mem {playerId : String} {board : Board}
    (hwf : BoardWF board) (c : Coordinate) :
    ownsFoundationAt playerId board c = true
      ↔ c ∈ PathfindingUtils.allFoundationsOf playerId board := by
  constructor
  · intro h
    rcases Bool.or_eq_true_iff.mp h with hl | ht
    · rcases hland : board.getLand c with _ | land
      · rw [hland] at hl
        cases hl
      · rw [hland] at hl
        have howner : land.ownerId = some playerId := by simpa using hl
        have hmem : (c, land) ∈ board.landMap := by
          unfold Board.getLand coordMapGet at hland
          rcases hfind : board.landMap.find? (fun p => p.1 = c) with _ | q
          · rw [hfind] at hland
            cases hland
          · rw [hfind] at hland
            have hq1 : q.1 = c := by simpa using List.find?_some hfind
            have hq2 : q.2 = land := by simpa using hland
            have : q = (c, land) := Prod.ext hq1 hq2
            exact this ▸ List.mem_of_find?_eq_some hfind
        apply List.mem_append_left
        apply List.mem_map.mpr
        refine ⟨land, ?_, (hwf.landPos (c, land) hmem).symm ▸ rfl⟩
        unfold Board.getLandsByOwner
        exact List.mem_filter.mpr ⟨List.mem_map.mpr ⟨(c, land), hmem, rfl⟩,
          by simpa using howner⟩
    · rcases hturtle : board.getTurtle c with _ | t
      · rw [hturtle] at ht
        cases ht
      · rw [hturtle] at ht
        have howner : t.ownerId = playerId := by simpa using ht
        have hmem : (c, t) ∈ board.turtleMap := by
          unfold Board.getTurtle coordMapGet at hturtle
          rcases hfind : board.turtleMap.find? (fun p => p.1 = c) with _ | q
          · rw [hfind] at hturtle
            cases hturtle
          · rw [hfind] at hturtle
            have hq1 : q.1 = c := by simpa using List.find?_some hfind
            have hq2 : q.2 = t := by simpa using hturtle
            have : q = (c, t) := Prod.ext hq1 hq2
            exact this ▸ List.mem_of_find?_eq_some hfind
        apply List.mem_append_right
        apply List.mem_filterMap.mpr
        refine ⟨t, ?_, hwf.turtlePos (c, t) hmem⟩
        unfold Board.getTurtlesByOwner
        exact List.mem_filter.mpr ⟨List.mem_map.mpr ⟨(c, t), hmem, rfl⟩,
          by simpa using howner⟩
  · intro h
    rcases List.mem_append.mp h with hl | ht
    · rcases List.mem_map.mp hl with ⟨land, hland, rfl⟩
      have hfl := List.mem_filter.mp hland
      rcases List.mem_map.mp hfl.1 with ⟨q, hq, rfl⟩
      have howner : q.2.ownerId = some playerId := by simpa using hfl.2
      have hpos : q.2.position = q.1 := hwf.landPos q hq
      have hget : board.getLand q.2.position = some q.2 := by
        unfold Board.getLand coordMapGet
        rw [hpos, find?_eq_of_nodup_keys hwf.landKeyNodup
          (show (q.1, q.2) ∈ board.landMap from hq)]
        rfl
      unfold ownsFoundationAt
      rw [hget]
      simp [howner]
    · rcases List.mem_filterMap.mp ht with ⟨t, hturtle, hpos⟩
      have hfl := List.mem_filter.mp hturtle
      rcases List.mem_map.mp hfl.1 with ⟨q, hq, rfl⟩
      have howner : q.2.ownerId = playerId := by simpa using hfl.2
      have hkey : q.2.position = some q.1 := hwf.turtlePos q hq
      have hc : c = q.1 := by
        rw [hkey] at hpos
        exact (Option.some_inj.mp hpos).symm
      have hget : board.getTurtle c = some q.2 := by
        unfold Board.getTurtle coordMapGet
        rw [hc, find?_eq_of_nodup_keys hwf.turtleKeyNodup
          (show (q.1, q.2) ∈ board.turtleMap from hq)]
        rfl
      unfold ownsFoundationAt
      rw [hget]
      simp [howner]

/-- For a turtle map whose values sit at their keys, recovering the
positions of all values yields exactly the key list. -/
theorem filterMap_position_eq_keys (m : List (Coordinate × Piece))
    (h : ∀ p ∈ m, p.2.position = some p.1) :
    (m.map (fun p => p.2)).filterMap (fun t => t.position) = m.map (fun p => p.1) := by
  induction m with
  | nil => rfl
  | cons q rest ih =>
    have hq := h q (List.mem_cons_self q rest)
    simp only [List.map_cons, List.filterMap_cons, hq]
    rw [ih (fun p hp => h p (List.mem_cons_of_mem q hp))]

/-- Under well-formedness and disjointness of the owned land and turtle
coordinates, the `allFoundations` list has no duplicates. -/
theorem allFoundationsOf_nodup {playerId : String} {board : Board}
    (hwf : BoardWF board)
    (hdisj : ∀ c ∈ (board.getLandsByOwner (some playerId)).map (fun l => l.position),
      c ∉ (board.getTurtlesByOwner playerId).filterMap (fun t => t.position)) :
    (PathfindingUtils.allFoundationsOf playerId board).Nodup := by
  unfold PathfindingUtils.allFoundationsOf
  rw [List.nodup_append]
  refine ⟨?_, ?_, fun a ha hb => hdisj a ha hb⟩
  · have hsl : List.Sublist
        ((board.getLandsByOwner (some playerId)).map (fun l => l.position))
        ((board.landMap.map (fun p => p.2)).map (fun l => l.position)) :=
      List.Sublist.map _ (List.filter_sublist _)
    have heq : (board.landMap.map (fun p => p.2)).map (fun l => l.position)
        = board.landMap.map (fun p => p.1) := by
      rw [List.map_map]
      exact List.map_congr_left (fun p hp => hwf.landPos p hp)
    rw [heq] at hsl
    exact List.Nodup.sublist hsl hwf.landKeyNodup
  · have hsl : List.Sublist
        ((board.getTurtlesByOwner playerId).filterMap (fun t => t.position))
        ((board.turtleMap.map (fun p => p.2)).filterMap (fun t => t.position)) :=
      List.Sublist.filterMap _ (List.filter_sublist _)
    rw [filterMap_position_eq_keys board.turtleMap hwf.turtlePos] at hsl
    exact List.Nodup.sublist hsl hwf.turtleKeyNodup

/-- An owned foundation coordinate has a foundation on the board. -/
theorem ownsFoundationAt_hasFoundation {playerId : String} {board : Board}
    {c : Coordinate} (h : ownsFoundationAt playerId board c = true) :
    board.hasFoundation c = true := by
  unfold ownsFoundationAt at h
  unfold Board.hasFoundation Board.hasLand Board.hasTurtle
  rcases Bool.or_eq_true_iff.mp h with hl | ht
  · rcases hland : board.getLand c with _ | land
    · rw [hland] at hl
      cases hl
    · unfold Board.getLand coordMapGet at hland
      rcases hfind : board.landMap.find? (fun p => p.1 = c) with _ | q
      · rw [hfind] at hland
        cases hland
      · have hpq := List.find?_some hfind
        apply Bool.or_eq_true_iff.mpr
        exact Or.inl (List.any_eq_true.mpr
          ⟨q, List.mem_of_find?_eq_some hfind, hpq⟩)
  · rcases hturtle : board.getTurtle c with _ | t
    · rw [hturtle] at ht
      cases ht
    · unfold Board.getTurtle coordMapGet at hturtle
      rcases hfind : board.turtleMap.find? (fun p => p.1 = c) with _ | q
      · rw [hfind] at hturtle
        cases hturtle
      · have hpq := List.find?_some hfind
        apply Bool.or_eq_true_iff.mpr
        exact Or.inr (List.any_eq_true.mpr
          ⟨q, List.mem_of_find?_eq_some hfind, hpq⟩)

/-- C5 (amended): on a well-formed board where no coordinate holds both a
land and a turtle of the player, and the player owns at most 100 foundation
entries (the flood fill is depth-capped at the default `maxDistance = 100`),
`arePlayerFoundationsConnected` returns `some` of exactly the claim's
predicate: trivially true with at most one owned foundation, else true iff
the flood fill from the first owned foundation coordinate, restricted to the
player's own land/turtle coordinates, reaches every owned one. -/
theorem C5_connectivity_amended (playerId : String) (board : Board)
    (hwf : BoardWF board)
    (hdisj : ∀ c ∈ (board.getLandsByOwner (some playerId)).map (fun l => l.position),
      c ∉ (board.getTurtlesByOwner playerId).filterMap (fun t => t.position))
    (hsize : (PathfindingUtils.allFoundationsOf playerId board).length ≤ 100) :
    ∃ b, PathfindingUtils.arePlayerFoundationsConnected playerId board = some b
      ∧ (b = true ↔ foundationsConnectedSpec playerId board) := by
  by_cases hle : (PathfindingUtils.allFoundationsOf playerId board).length ≤ 1
  · refine ⟨true, ?_, by simp [foundationsConnectedSpec, hle]⟩
    unfold PathfindingUtils.arePlayerFoundationsConnected
    rw [if_pos hle]
  · obtain ⟨f0, rest, howned⟩ : ∃ f0 rest,
        PathfindingUtils.allFoundationsOf playerId board = f0 :: rest := by
      match hlist : PathfindingUtils.allFoundationsOf playerId board with
      | [] =>
        rw [hlist] at hle
        simp at hle
      | f0 :: rest => exact ⟨f0, rest, rfl⟩
    have hnodupO := allFoundationsOf_nodup hwf hdisj
    have hf0mem : f0 ∈ PathfindingUtils.allFoundationsOf playerId board := by
      rw [howned]
      exact List.mem_cons_self _ _
    have hfound : board.hasFoundation f0 = true :=
      ownsFoundationAt_hasFoundation ((ownsFoundationAt_iff_mem hwf f0).mpr hf0mem)
    have hiv : ∀ a b, PathfindingUtils.ownFoundationValid playerId a b board
        = ownsFoundationAt playerId board b := fun a b => rfl
    have hUvalid : ∀ c, ownsFoundationAt playerId board c = true →
        c ∈ PathfindingUtils.allFoundationsOf playerId board :=
      fun c hc => (ownsFoundationAt_iff_mem hwf c).mp hc
    have hinv0 : ReachInv (ownsFoundationAt playerId board) f0 [(f0, 0)] [f0] [] := by
      refine ⟨by simp, by simp, ?_, ?_, ?_, by simp⟩
      · intro c hc
        exact Or.inl (List.mem_singleton.mp hc)
      · intro q hq
        rw [List.mem_singleton.mp hq]
        simp
      · intro c hc
        rw [List.mem_singleton.mp hc]
    have hfuel0 : ([((f0 : Coordinate), (0 : Nat))]).length
        + ((PathfindingUtils.allFoundationsOf playerId board).length - ([f0] : List Coordinate).length)
        < (2 * 100 + 1) ^ 2 + 1 := by
      simp only [List.length_singleton]
      omega
    obtain ⟨r, hr, hnodupR, hmemR, hreachR, hclosedR, hsubR⟩ :=
      reachAux_correct hiv hnodupO hUvalid hf0mem hsize
        ((2 * 100 + 1) ^ 2 + 1) [(f0, 0)] [f0] [] hinv0 hfuel0
    have hreach_eq : PathfindingUtils.findReachableArea f0 board
        { isValidMove := some (PathfindingUtils.ownFoundationValid playerId) } = some r := by
      unfold PathfindingUtils.findReachableArea
      rw [if_neg (by rw [hfound]; simp)]
      exact hr
    have hcode : PathfindingUtils.arePlayerFoundationsConnected playerId board
        = some ((r.length = (PathfindingUtils.allFoundationsOf playerId board).length : Bool)) := by
      unfold PathfindingUtils.arePlayerFoundationsConnected
      rw [if_neg hle, howned]
      show Option.map (fun reachable =>
          decide (reachable.length = (f0 :: rest).length))
          (PathfindingUtils.findReachableArea f0 board
            { isValidMove := some (PathfindingUtils.ownFoundationValid playerId) })
        = some (decide (r.length = (f0 :: rest).length))
      rw [hreach_eq]
      rfl
    refine ⟨_, hcode, ?_⟩
    have hrsub : r ⊆ PathfindingUtils.allFoundationsOf playerId board := by
      intro c hc
      rcases hmemR c hc with rfl | hval
      · exact hf0mem
      · exact hUvalid c hval
    constructor
    · intro hb
      have hlen : r.length = (PathfindingUtils.allFoundationsOf playerId board).length := by
        simpa using hb
      have hperm : r.Perm (PathfindingUtils.allFoundationsOf playerId board) :=
        (List.subperm_of_subset hnodupR hrsub).perm_of_length_le (le_of_eq hlen.symm)
      refine Or.inr ?_
      intro f0' hf0' c hc
      have hf0'eq : f0' = f0 := by
        rw [howned] at hf0'
        simpa [eq_comm] using hf0'
      subst hf0'eq
      exact hreachR c (hperm.mem_iff.mpr hc)
    · intro hspec
      rcases hspec with habs | hspec
      · exact absurd habs hle
      have hf0head : f0 ∈ (PathfindingUtils.allFoundationsOf playerId board).head? := by
        rw [howned]
        simp
      have hRTG := hspec f0 hf0head
      have hf0r : f0 ∈ r := hsubR f0 (List.mem_singleton.mpr rfl)
      have hclosure : ∀ c, Relation.ReflTransGen (ownedStep playerId board) f0 c → c ∈ r := by
        intro c h
        induction h with
        | refl => exact hf0r
        | tail h1 h2 ih => exact hclosedR _ ih _ h2
      have hosub : PathfindingUtils.allFoundationsOf playerId board ⊆ r :=
        fun c hc => hclosure c (hRTG c hc)
      have hlen1 : r.length ≤ (PathfindingUtils.allFoundationsOf playerId board).length :=
        (List.subperm_of_subset hnodupR hrsub).length_le
      have hlen2 : (PathfindingUtils.allFoundationsOf playerId board).length ≤ r.length :=
        (List.subperm_of_subset hnodupO hosub).length_le
      simp [Nat.le_antisymm hlen1 hlen2]

/-- A board where player `p1` has a land *and* a turtle at (0,0): one owned
foundation coordinate, counted twice by `allFoundations`. -/
def overlapBoard : Board := Board.new
  [ { id := "l1", position := { x := 0, y := 0 }, ownerId := some "p1" } ]
  [ { id := "t1", type := "turtle", ownerId := "p1",
      position := some { x := 0, y := 0 } } ] []

/-- C5 counterexample: on `overlapBoard` the player owns exactly one
foundation *coordinate* (so the claim demands `true` — and its flood-fill
predicate indeed holds), yet `arePlayerFoundationsConnected` returns
`false`: it counts two foundation entries and the flood fill visits one
coordinate. -/
theorem C5_counterexample :
    (PathfindingUtils.allFoundationsOf "p1" overlapBoard).dedup.length ≤ 1
    ∧ foundationsConnectedSpec "p1" overlapBoard
    ∧ PathfindingUtils.arePlayerFoundationsConnected "p1" overlapBoard
        = some false := by
  have hlist : PathfindingUtils.allFoundationsOf "p1" overlapBoard
      = [{ x := 0, y := 0 }, { x := 0, y := 0 }] := by decide
  refine ⟨by decide, Or.inr ?_, by decide⟩
  intro f0 hf0 c hc
  rw [hlist] at hf0 hc
  have hf : f0 = { x := 0, y := 0 } := by simpa [eq_comm] using hf0
  have hcc : c = { x := 0, y := 0 } := by
    rcases List.mem_cons.mp hc with h | h
    · exact h
    · exact List.mem_singleton.mp h
  rw [hf, hcc]

/-- Two adjacent lands owned by `p1`, for witnessing the amended C5. -/
def ownedChainBoard : Board := Board.new
  [ { id := "l1", position := { x := 0, y := 0 }, ownerId := some "p1" }
  , { id := "l2", position := { x := 1, y := 0 }, ownerId := some "p1" } ] [] []

/-- C5 amended, witnessed at a concrete two-land board. -/
theorem C5_connectivity_amended_witness :
    ∃ b, PathfindingUtils.arePlayerFoundationsConnected "p1" ownedChainBoard = some b
      ∧ (b = true ↔ foundationsConnectedSpec "p1" ownedChainBoard) :=
  C5_connectivity_amended "p1" ownedChainBoard
    ⟨by decide, by decide, by decide, by decide⟩ (by decide) (by decide)

/-- A board of two adjacent lands, for witnessing `findPath` soundness. -/
def twoLandBoard : Board := Board.new
  [ { id := "l1", position := { x := 0, y := 0 }, ownerId := none }
  , { id := "l2", position := { x := 1, y := 0 }, ownerId := none } ] [] []

/-- C6 witnessed on a concrete two-land board where `findPath` finds the
path `[(0,0), (1,0)]`. -/
theorem C6_path_soundness_witness :
    List.Chain' (fun a b => b ∈ PathfindingUtils.neighborsOf false a
      ∧ (twoLandBoard.hasFoundation b && !(twoLandBoard.isOccupied b)) = true)
      [{ x := 0, y := 0 }, { x := 1, y := 0 }] :=
  C6_path_soundness { x := 0, y := 0 } { x := 1, y := 0 } twoLandBoard {}
    { found := true
      path := [{ x := 0, y := 0 }, { x := 1, y := 0 }]
      distance := 2
      explored := [{ x := 0, y := 0 }] }
    (by rfl) rfl

/-- C10 witnessed at a concrete state where `p1` joins twice. -/
theorem C10_join_idempotent_witness :
    GameStateDerivation.applyAction
        (GameStateDerivation.applyAction
          (GameStateDerivation.deriveState sampleInit [] 0)
          (mkAction 1 "p1" (.joinGame "Alice" none)))
        (mkAction 1 "p1" (.joinGame "Alice" none))
      = GameStateDerivation.applyAction
          (GameStateDerivation.deriveState sampleInit [] 0)
          (mkAction 1 "p1" (.joinGame "Alice" none)) :=
  (C10_join_idempotent (GameStateDerivation.deriveState sampleInit [] 0)
    (mkAction 1 "p1" (.joinGame "Alice" none)) "Alice" none rfl).2

end CitadelGame
